import Mathlib

/-!
# CHIP-8 interpreter core (`core.go`)

A shallow embedding of the fetch-decode-execute engine of `core.go`.

* The package-level variables of the Go program become the fields of `Chip8`.
* `uint8` and `uint16` values are natural numbers; every arithmetic result is
  reduced `% 256` or `% 65536` where the Go operation can wrap.
* A Go array is a function `Nat → Nat` together with its length at each access:
  an index outside the array is the Go run-time panic `index out of range`,
  modelled as `Except.error Fault.indexOutOfRange` (the program never recovers).
* `fmt.Printf` output is not part of the state.
* `rand.Float64` is an input: `cycle` takes the value of
  `uint16(rand.Float64() * float64(255))` as its argument `rnd`.
-/

set_option linter.unusedTactic false
set_option linter.unreachableTactic false
set_option linter.unnecessarySeqFocus false
set_option linter.unusedVariables false

namespace Chip8Go

/-- The run-time panic of a Go array access outside the array. -/
inductive Fault where
  | indexOutOfRange
  deriving DecidableEq, Repr

/-- The package-level variables of `core.go`. -/
structure Chip8 where
  opcode : Nat
  memory : Nat → Nat
  V : Nat → Nat
  I : Nat
  pc : Nat
  gfx : Nat → Nat
  delayTimer : Nat
  soundTimer : Nat
  stack : Nat → Nat
  sp : Nat
  key : Nat → Nat
  drawFlag : Bool

/-- How the body of `cycle` is left: by reaching `updateTimers()` at its end, or by the
`return` statement inside the `0xFX0A` case. -/
inductive Flow where
  | fallThrough (s : Chip8)
  | returned (s : Chip8)

/-- The array `a` with cell `i` overwritten by `v`. -/
def upd (a : Nat → Nat) (i v : Nat) : Nat → Nat :=
  fun j => if j = i then v else a j

/-- Array read `a[i]` of an array of length `len`. -/
def load (a : Nat → Nat) (len i : Nat) : Except Fault Nat :=
  if i < len then .ok (a i) else .error .indexOutOfRange

/-- Array write `a[i] = v` of an array of length `len`. -/
def store (a : Nat → Nat) (len i v : Nat) : Except Fault (Nat → Nat) :=
  if i < len then .ok (upd a i v) else .error .indexOutOfRange

/-- Subtraction of two `uint8` values, wrapping. -/
def sub8 (a b : Nat) : Nat := (a + 256 - b) % 256

/-- The field `(opcode & 0x0F00) >> 8`. -/
def opX (s : Chip8) : Nat := (s.opcode &&& 0x0F00) >>> 8

/-- The field `(opcode & 0x00F0) >> 4`. -/
def opY (s : Chip8) : Nat := (s.opcode &&& 0x00F0) >>> 4

/-- The field `opcode & 0x00FF`. -/
def opNN (s : Chip8) : Nat := s.opcode &&& 0x00FF

/-- The field `opcode & 0x0FFF`. -/
def opNNN (s : Chip8) : Nat := s.opcode &&& 0x0FFF

/-- `pc += 2` on a `uint16`. -/
def goToNextInstruction (s : Chip8) : Chip8 :=
  { s with pc := (s.pc + 2) % 65536 }

/-- `for i, _ := range gfx { gfx[i] = 0 }` over the 64 * 32 cells. -/
def clearScreen (s : Chip8) : Chip8 :=
  { s with gfx := fun i => if i < 2048 then 0 else s.gfx i }

/-- `pc = address`. -/
def jump (address : Nat) (s : Chip8) : Chip8 :=
  { s with pc := address }

/-- `stack[sp] = pc; sp++; pc = address`. -/
def call (address : Nat) (s : Chip8) : Except Fault Chip8 := do
  let stack ← store s.stack 16 s.sp s.pc
  pure { s with stack := stack, sp := (s.sp + 1) % 65536, pc := address }

/-- Two calls of `goToNextInstruction`. -/
def skipNextInstruction (s : Chip8) : Chip8 :=
  goToNextInstruction (goToNextInstruction s)

/-- The uint8 index expression `x + uint8(xline) + ((y + uint8(yline)) * 64)`. -/
def gfxIndex (x y xline yline : Nat) : Nat :=
  ((x + xline % 256) % 256 + (((y + yline % 256) % 256) * 64) % 256) % 256

/-- Body of the inner loop of `drawSprite` for one value of `xline`. -/
def drawPixel (x y yline pixel : Nat) (s : Chip8) (xline : Nat) : Except Fault Chip8 :=
  if pixel &&& (0x80 >>> xline) ≠ 0 then do
    let cell ← load s.gfx 2048 (gfxIndex x y xline yline)
    let v := if cell = 1 then upd s.V 0xF 1 else s.V
    let old ← load s.gfx 2048 (gfxIndex x y xline yline)
    pure { s with V := v, gfx := upd s.gfx (gfxIndex x y xline yline) (old ^^^ 1) }
  else
    pure s

/-- Body of the outer loop of `drawSprite` for one value of `yline`; the inner loop runs
`xline` over `0 .. height - 1`. -/
def drawRow (x y height : Nat) (s : Chip8) (yline : Nat) : Except Fault Chip8 := do
  let pixel ← load s.memory 4096 ((s.I + yline % 65536) % 65536)
  (List.range height).foldlM (drawPixel x y yline pixel) s

/-- The function `drawSprite`. -/
def drawSprite (s : Chip8) : Except Fault Chip8 := do
  let x ← load s.V 16 (opX s)
  let y ← load s.V 16 (opY s)
  let height := s.opcode &&& 0x000F
  let s0 := { s with V := upd s.V 0xF 0 }
  let s1 ← (List.range height).foldlM (drawRow x y height) s0
  pure { s1 with drawFlag := true }

/-- The function `updateTimers` (the `BEEP!` line is output only). -/
def updateTimers (s : Chip8) : Chip8 :=
  let s1 := if s.delayTimer > 0 then { s with delayTimer := s.delayTimer - 1 } else s
  if s1.soundTimer > 0 then { s1 with soundTimer := s1.soundTimer - 1 } else s1

/-- The first statement of `cycle`:
`opcode = uint16(memory[pc]) << 8 | uint16(memory[pc + 1])`. -/
def fetch (s : Chip8) : Except Fault Chip8 := do
  let hi ← load s.memory 4096 s.pc
  let lo ← load s.memory 4096 ((s.pc + 1) % 65536)
  pure { s with opcode := (hi <<< 8) % 65536 ||| lo }

/-- Case `0x00E0`: `clearScreen(); goToNextInstruction()`. -/
def case00E0 (s : Chip8) : Chip8 :=
  goToNextInstruction (clearScreen s)

/-- Case `0x00EE`: `sp--; pc = stack[sp]; goToNextInstruction()`. -/
def case00EE (s : Chip8) : Except Fault Chip8 := do
  let s1 := { s with sp := (s.sp + 65535) % 65536 }
  let ret ← load s1.stack 16 s1.sp
  pure (goToNextInstruction { s1 with pc := ret })

/-- The case `0x0000` of the outer switch: inner switch on `opcode & 0x000F`. -/
def family0 (s : Chip8) : Except Fault Flow :=
  if s.opcode &&& 0x000F = 0x0000 then
    pure (.fallThrough (case00E0 s))
  else if s.opcode &&& 0x000F = 0x000E then do
    let s1 ← case00EE s
    pure (.fallThrough s1)
  else
    pure (.fallThrough s)

/-- Case `0x3XNN`: skip if `uint16(V[x]) == nn`. -/
def case3XNN (s : Chip8) : Except Fault Chip8 := do
  let vx ← load s.V 16 (opX s)
  pure (if vx = opNN s then skipNextInstruction s else goToNextInstruction s)

/-- Case `0x4XNN`: skip if `uint16(V[x]) != nn`. -/
def case4XNN (s : Chip8) : Except Fault Chip8 := do
  let vx ← load s.V 16 (opX s)
  pure (if vx ≠ opNN s then skipNextInstruction s else goToNextInstruction s)

/-- Case `0x5XY0`: `y := opcode & 0x00F0` (not shifted); skip if `V[x] == V[y]`. -/
def case5XY0 (s : Chip8) : Except Fault Chip8 := do
  let vx ← load s.V 16 (opX s)
  let vy ← load s.V 16 (s.opcode &&& 0x00F0)
  pure (if vx = vy then skipNextInstruction s else goToNextInstruction s)

/-- Case `0x6XNN`: `V[x] = uint8(nn)`. -/
def case6XNN (s : Chip8) : Except Fault Chip8 := do
  let v ← store s.V 16 (opX s) (opNN s % 256)
  pure (goToNextInstruction { s with V := v })

/-- Case `0x7XNN`: `V[x] += uint8(nn)`. -/
def case7XNN (s : Chip8) : Except Fault Chip8 := do
  let vx ← load s.V 16 (opX s)
  let v ← store s.V 16 (opX s) ((vx + opNN s % 256) % 256)
  pure (goToNextInstruction { s with V := v })

/-- Case `0x8XY0`: `V[x] = V[y]`. -/
def case8XY0 (s : Chip8) : Except Fault Chip8 := do
  let vy ← load s.V 16 (opY s)
  let v ← store s.V 16 (opX s) vy
  pure (goToNextInstruction { s with V := v })

/-- Case `0x8XY1`: `V[x] = V[x] | V[y]`. -/
def case8XY1 (s : Chip8) : Except Fault Chip8 := do
  let vx ← load s.V 16 (opX s)
  let vy ← load s.V 16 (opY s)
  let v ← store s.V 16 (opX s) (vx ||| vy)
  pure (goToNextInstruction { s with V := v })

/-- Case `0x8XY2`: `V[x] = V[x] & V[y]`. -/
def case8XY2 (s : Chip8) : Except Fault Chip8 := do
  let vx ← load s.V 16 (opX s)
  let vy ← load s.V 16 (opY s)
  let v ← store s.V 16 (opX s) (vx &&& vy)
  pure (goToNextInstruction { s with V := v })

/-- Case `0x8XY3`: `V[x] = V[x] ^ V[y]`. -/
def case8XY3 (s : Chip8) : Except Fault Chip8 := do
  let vx ← load s.V 16 (opX s)
  let vy ← load s.V 16 (opY s)
  let v ← store s.V 16 (opX s) (vx ^^^ vy)
  pure (goToNextInstruction { s with V := v })

/-- Case `0x8XY4`: `V[0xF]` is set from `V[y] > 0xFF - V[x]`, then `V[x] += V[y]`. -/
def case8XY4 (s : Chip8) : Except Fault Chip8 := do
  let vy ← load s.V 16 (opY s)
  let vx ← load s.V 16 (opX s)
  let s1 := { s with V := upd s.V 0xF (if vy > sub8 0xFF vx then 1 else 0) }
  let vx1 ← load s1.V 16 (opX s)
  let vy1 ← load s1.V 16 (opY s)
  let v ← store s1.V 16 (opX s) ((vx1 + vy1) % 256)
  pure (goToNextInstruction { s1 with V := v })

/-- Case `0x8XY5`: `V[0xF]` is set from `V[y] > V[x]`, then `V[x] -= V[y]`. -/
def case8XY5 (s : Chip8) : Except Fault Chip8 := do
  let vy ← load s.V 16 (opY s)
  let vx ← load s.V 16 (opX s)
  let s1 := { s with V := upd s.V 0xF (if vy > vx then 0 else 1) }
  let vx1 ← load s1.V 16 (opX s)
  let vy1 ← load s1.V 16 (opY s)
  let v ← store s1.V 16 (opX s) (sub8 vx1 vy1)
  pure (goToNextInstruction { s1 with V := v })

/-- Case `0x8XY6`: `V[0xF] = V[x] & 0x1; V[x] = V[x] >> 1`. -/
def case8XY6 (s : Chip8) : Except Fault Chip8 := do
  let vx ← load s.V 16 (opX s)
  let s1 := { s with V := upd s.V 0xF (vx &&& 0x1) }
  let vx1 ← load s1.V 16 (opX s)
  let v ← store s1.V 16 (opX s) (vx1 >>> 1)
  pure (goToNextInstruction { s1 with V := v })

/-- Case `0x8XY7`: `V[0xF]` is set from `V[x] > V[y]`, then `V[x] = V[y] - V[x]`. -/
def case8XY7 (s : Chip8) : Except Fault Chip8 := do
  let vx ← load s.V 16 (opX s)
  let vy ← load s.V 16 (opY s)
  let s1 := { s with V := upd s.V 0xF (if vx > vy then 0 else 1) }
  let vy1 ← load s1.V 16 (opY s)
  let vx1 ← load s1.V 16 (opX s)
  let v ← store s1.V 16 (opX s) (sub8 vy1 vx1)
  pure (goToNextInstruction { s1 with V := v })

/-- Case `0x8XYE`: `V[0xF] = V[x] >> 7; V[x] = V[x] << 1`. -/
def case8XYE (s : Chip8) : Except Fault Chip8 := do
  let vx ← load s.V 16 (opX s)
  let s1 := { s with V := upd s.V 0xF (vx >>> 7) }
  let vx1 ← load s1.V 16 (opX s)
  let v ← store s1.V 16 (opX s) ((vx1 <<< 1) % 256)
  pure (goToNextInstruction { s1 with V := v })

/-- The case `0x8000` of the outer switch: inner switch on `opcode & 0x000F`, which has no
default case. -/
def family8 (s : Chip8) : Except Fault Flow :=
  if s.opcode &&& 0x000F = 0x0000 then do
    let s1 ← case8XY0 s
    pure (.fallThrough s1)
  else if s.opcode &&& 0x000F = 0x0001 then do
    let s1 ← case8XY1 s
    pure (.fallThrough s1)
  else if s.opcode &&& 0x000F = 0x0002 then do
    let s1 ← case8XY2 s
    pure (.fallThrough s1)
  else if s.opcode &&& 0x000F = 0x0003 then do
    let s1 ← case8XY3 s
    pure (.fallThrough s1)
  else if s.opcode &&& 0x000F = 0x0004 then do
    let s1 ← case8XY4 s
    pure (.fallThrough s1)
  else if s.opcode &&& 0x000F = 0x0005 then do
    let s1 ← case8XY5 s
    pure (.fallThrough s1)
  else if s.opcode &&& 0x000F = 0x0006 then do
    let s1 ← case8XY6 s
    pure (.fallThrough s1)
  else if s.opcode &&& 0x000F = 0x0007 then do
    let s1 ← case8XY7 s
    pure (.fallThrough s1)
  else if s.opcode &&& 0x000F = 0x000E then do
    let s1 ← case8XYE s
    pure (.fallThrough s1)
  else
    pure (.fallThrough s)

/-- Case `0x9XY0`: skip if `V[x] != V[y]`. -/
def case9XY0 (s : Chip8) : Except Fault Chip8 := do
  let vx ← load s.V 16 (opX s)
  let vy ← load s.V 16 (opY s)
  pure (if vx ≠ vy then skipNextInstruction s else goToNextInstruction s)

/-- Case `0xANNN`: `I = opcode & 0x0FFF`. -/
def caseANNN (s : Chip8) : Chip8 :=
  goToNextInstruction { s with I := opNNN s }

/-- Case `0xBNNN`: `jump((opcode & 0x0FFF) + uint16(V[0]))`. -/
def caseBNNN (s : Chip8) : Except Fault Chip8 := do
  let v0 ← load s.V 16 0
  pure (jump ((opNNN s + v0) % 65536) s)

/-- Case `0xCXNN`: `V[x] = uint8(rnd & nn)` with `rnd` the random `uint16`. -/
def caseCXNN (rnd : Nat) (s : Chip8) : Except Fault Chip8 := do
  let v ← store s.V 16 (opX s) ((rnd % 65536 &&& opNN s) % 256)
  pure (goToNextInstruction { s with V := v })

/-- Case `0xDXYN`: `drawSprite(); goToNextInstruction()`. -/
def caseDXYN (s : Chip8) : Except Fault Chip8 := do
  let s1 ← drawSprite s
  pure (goToNextInstruction s1)

/-- Case `0xEX9E`: skip if `key[V[x]] != 0`. -/
def caseEX9E (s : Chip8) : Except Fault Chip8 := do
  let vx ← load s.V 16 (opX s)
  let k ← load s.key 16 vx
  pure (if k ≠ 0 then skipNextInstruction s else goToNextInstruction s)

/-- Case `0xEXA1`: skip if `key[V[x]] == 0`. -/
def caseEXA1 (s : Chip8) : Except Fault Chip8 := do
  let vx ← load s.V 16 (opX s)
  let k ← load s.key 16 vx
  pure (if k = 0 then skipNextInstruction s else goToNextInstruction s)

/-- The case `0xE000` of the outer switch: inner switch on `opcode & 0x00FF`, which has no
default case. -/
def familyE (s : Chip8) : Except Fault Flow :=
  if opNN s = 0x009E then do
    let s1 ← caseEX9E s
    pure (.fallThrough s1)
  else if opNN s = 0x00A1 then do
    let s1 ← caseEXA1 s
    pure (.fallThrough s1)
  else
    pure (.fallThrough s)

/-- Case `0xFX07`: `V[x] = delayTimer`. -/
def caseFX07 (s : Chip8) : Except Fault Chip8 := do
  let v ← store s.V 16 (opX s) s.delayTimer
  pure (goToNextInstruction { s with V := v })

/-- Body of the key scan of `0xFX0A` for one value of `i`; the accumulator is the register
file and the local `keyPressed`. -/
def keyScanStep (key : Nat → Nat) (x : Nat) (acc : (Nat → Nat) × Bool) (i : Nat) :
    Except Fault ((Nat → Nat) × Bool) := do
  let k ← load key 16 i
  if k ≠ 0 then do
    let v ← store acc.1 16 x (i % 256)
    pure (v, true)
  else
    pure acc

/-- Case `0xFX0A`: scan `key[0 .. 15]`; `return` when no key is pressed, otherwise
`goToNextInstruction()`. -/
def caseFX0A (s : Chip8) : Except Fault Flow := do
  let r ← (List.range 16).foldlM (keyScanStep s.key (opX s)) (s.V, false)
  if !r.2 then
    pure (.returned { s with V := r.1 })
  else
    pure (.fallThrough (goToNextInstruction { s with V := r.1 }))

/-- Case `0xFX15`: `delayTimer = V[x]`. -/
def caseFX15 (s : Chip8) : Except Fault Chip8 := do
  let vx ← load s.V 16 (opX s)
  pure (goToNextInstruction { s with delayTimer := vx })

/-- Case `0xFX18`: `soundTimer = V[x]`. -/
def caseFX18 (s : Chip8) : Except Fault Chip8 := do
  let vx ← load s.V 16 (opX s)
  pure (goToNextInstruction { s with soundTimer := vx })

/-- Case `0xFX1E`: `I += uint16(V[x])`. -/
def caseFX1E (s : Chip8) : Except Fault Chip8 := do
  let vx ← load s.V 16 (opX s)
  pure (goToNextInstruction { s with I := (s.I + vx) % 65536 })

/-- Case `0xFX29`: `I = uint16(V[x] * 0x5)`, the product taken in `uint8`. -/
def caseFX29 (s : Chip8) : Except Fault Chip8 := do
  let vx ← load s.V 16 (opX s)
  pure (goToNextInstruction { s with I := (vx * 0x5) % 256 })

/-- Case `0xFX33`: the three decimal digits of `V[x]` to `memory[I]`, `memory[I + 1]`,
`memory[I + 2]`. -/
def caseFX33 (s : Chip8) : Except Fault Chip8 := do
  let vx ← load s.V 16 (opX s)
  let m0 ← store s.memory 4096 s.I (vx / 100)
  let m1 ← store m0 4096 ((s.I + 1) % 65536) ((vx / 10) % 10)
  let m2 ← store m1 4096 ((s.I + 2) % 65536) ((vx % 100) % 10)
  pure (goToNextInstruction { s with memory := m2 })

/-- Body of the loop of `0xFX55` for one value of `i`: `memory[I + uint16(i)] = V[i]`. -/
def storeRegStep (s : Chip8) (i : Nat) : Except Fault Chip8 := do
  let vi ← load s.V 16 i
  let m ← store s.memory 4096 ((s.I + i % 65536) % 65536) vi
  pure { s with memory := m }

/-- Case `0xFX55`: `for i := 0; i <= int(x); i++ { memory[I + uint16(i)] = V[i] }`, then
`I += x + 1`. -/
def caseFX55 (s : Chip8) : Except Fault Chip8 := do
  let s1 ← (List.range (opX s + 1)).foldlM storeRegStep s
  pure (goToNextInstruction { s1 with I := (s1.I + (opX s + 1) % 65536) % 65536 })

/-- Body of the loop of `0xFX65` for one value of `i`: `V[i] = memory[I + uint16(i)]`. -/
def loadRegStep (s : Chip8) (i : Nat) : Except Fault Chip8 := do
  let b ← load s.memory 4096 ((s.I + i % 65536) % 65536)
  let v ← store s.V 16 i b
  pure { s with V := v }

/-- Case `0xFX65`: `for i := 0; i <= int(x); i++ { V[i] = memory[I + uint16(i)] }`, then
`I += x + 1`. -/
def caseFX65 (s : Chip8) : Except Fault Chip8 := do
  let s1 ← (List.range (opX s + 1)).foldlM loadRegStep s
  pure (goToNextInstruction { s1 with I := (s1.I + (opX s + 1) % 65536) % 65536 })

/-- The case `0xF000` of the outer switch: inner switch on `opcode & 0x00FF`. -/
def familyF (s : Chip8) : Except Fault Flow :=
  if opNN s = 0x0007 then do
    let s1 ← caseFX07 s
    pure (.fallThrough s1)
  else if opNN s = 0x000A then
    caseFX0A s
  else if opNN s = 0x0015 then do
    let s1 ← caseFX15 s
    pure (.fallThrough s1)
  else if opNN s = 0x0018 then do
    let s1 ← caseFX18 s
    pure (.fallThrough s1)
  else if opNN s = 0x001E then do
    let s1 ← caseFX1E s
    pure (.fallThrough s1)
  else if opNN s = 0x0029 then do
    let s1 ← caseFX29 s
    pure (.fallThrough s1)
  else if opNN s = 0x0033 then do
    let s1 ← caseFX33 s
    pure (.fallThrough s1)
  else if opNN s = 0x0055 then do
    let s1 ← caseFX55 s
    pure (.fallThrough s1)
  else if opNN s = 0x0065 then do
    let s1 ← caseFX65 s
    pure (.fallThrough s1)
  else
    pure (.fallThrough s)

/-- The outer `switch opcode & 0xF000` of `cycle`. -/
def dispatch (rnd : Nat) (s : Chip8) : Except Fault Flow :=
  if s.opcode &&& 0xF000 = 0x0000 then
    family0 s
  else if s.opcode &&& 0xF000 = 0x1000 then
    pure (.fallThrough (jump (opNNN s) s))
  else if s.opcode &&& 0xF000 = 0x2000 then do
    let s1 ← call (opNNN s) s
    pure (.fallThrough s1)
  else if s.opcode &&& 0xF000 = 0x3000 then do
    let s1 ← case3XNN s
    pure (.fallThrough s1)
  else if s.opcode &&& 0xF000 = 0x4000 then do
    let s1 ← case4XNN s
    pure (.fallThrough s1)
  else if s.opcode &&& 0xF000 = 0x5000 then do
    let s1 ← case5XY0 s
    pure (.fallThrough s1)
  else if s.opcode &&& 0xF000 = 0x6000 then do
    let s1 ← case6XNN s
    pure (.fallThrough s1)
  else if s.opcode &&& 0xF000 = 0x7000 then do
    let s1 ← case7XNN s
    pure (.fallThrough s1)
  else if s.opcode &&& 0xF000 = 0x8000 then
    family8 s
  else if s.opcode &&& 0xF000 = 0x9000 then do
    let s1 ← case9XY0 s
    pure (.fallThrough s1)
  else if s.opcode &&& 0xF000 = 0xA000 then
    pure (.fallThrough (caseANNN s))
  else if s.opcode &&& 0xF000 = 0xB000 then do
    let s1 ← caseBNNN s
    pure (.fallThrough s1)
  else if s.opcode &&& 0xF000 = 0xC000 then do
    let s1 ← caseCXNN rnd s
    pure (.fallThrough s1)
  else if s.opcode &&& 0xF000 = 0xD000 then do
    let s1 ← caseDXYN s
    pure (.fallThrough s1)
  else if s.opcode &&& 0xF000 = 0xE000 then
    familyE s
  else if s.opcode &&& 0xF000 = 0xF000 then
    familyF s
  else
    pure (.fallThrough s)

/-- The function `cycle`: fetch, dispatch, and `updateTimers()` unless the body returned. -/
def cycle (rnd : Nat) (s : Chip8) : Except Fault Chip8 := do
  let s1 ← fetch s
  match ← dispatch rnd s1 with
  | .fallThrough s2 => pure (updateTimers s2)
  | .returned s2 => pure s2

/-- The state carried by a `Flow`. -/
def Flow.state : Flow → Chip8
  | .fallThrough s => s
  | .returned s => s

/-- The call stack, the stack pointer and the keypad of `s1` are those of `s`. -/
def StackFrame (s s1 : Chip8) : Prop :=
  s1.sp = s.sp ∧ s1.stack = s.stack ∧ s1.key = s.key

/-- The call stack, the stack pointer, the keypad and the display of `s1` are those of `s`. -/
def Frame (s s1 : Chip8) : Prop :=
  StackFrame s s1 ∧ s1.gfx = s.gfx

/-- The instruction words for which the switch of `cycle` runs no case body: the `default`
branch of the `0x0000` family, the low nibbles the `0x8000` family has no case for, the low
bytes the `0xE000` family has no case for, and the `default` branch of the `0xF000` family. -/
def noCase (w : Nat) : Prop :=
  (w &&& 0xF000 = 0x0000 ∧ w &&& 0x000F ≠ 0x0000 ∧ w &&& 0x000F ≠ 0x000E) ∨
  (w &&& 0xF000 = 0x8000 ∧ w &&& 0x000F ∉ [0x0, 0x1, 0x2, 0x3, 0x4, 0x5, 0x6, 0x7, 0xE]) ∨
  (w &&& 0xF000 = 0xE000 ∧ w &&& 0x00FF ≠ 0x009E ∧ w &&& 0x00FF ≠ 0x00A1) ∨
  (w &&& 0xF000 = 0xF000 ∧
    w &&& 0x00FF ∉ [0x07, 0x0A, 0x15, 0x18, 0x1E, 0x29, 0x33, 0x55, 0x65])

instance : DecidablePred noCase := fun w => by
  unfold noCase
  infer_instance

/-- The array literal `chip8Fontset` of `initilize`: 16 glyphs of 5 bytes each. -/
def chip8Fontset : List Nat :=
  [0xF0, 0x90, 0x90, 0x90, 0xF0,
   0x20, 0x60, 0x20, 0x20, 0x70,
   0xF0, 0x10, 0xF0, 0x80, 0xF0,
   0xF0, 0x10, 0xF0, 0x10, 0xF0,
   0x90, 0x90, 0xF0, 0x10, 0x10,
   0xF0, 0x80, 0xF0, 0x10, 0xF0,
   0xF0, 0x80, 0xF0, 0x90, 0xF0,
   0xF0, 0x10, 0x20, 0x40, 0x40,
   0xF0, 0x90, 0xF0, 0x90, 0xF0,
   0xF0, 0x90, 0xF0, 0x10, 0xF0,
   0xF0, 0x90, 0xF0, 0x90, 0x90,
   0xE0, 0x90, 0xE0, 0x90, 0xE0,
   0xF0, 0x80, 0x80, 0x80, 0xF0,
   0xE0, 0x90, 0x90, 0x90, 0xE0,
   0xF0, 0x80, 0xF0, 0x80, 0xF0,
   0xF0, 0x80, 0xF0, 0x80, 0x80]

/-- The five bytes of the glyph for hex digit `d`: row `d` of the literal `chip8Fontset`. -/
def glyph (d : Nat) : List Nat :=
  (chip8Fontset.drop (5 * d)).take 5

/-- The function `initilize`: `pc`, `opcode`, `I`, `sp`, then the loops zeroing `memory` and
`stack`, `clearScreen()`, the loop copying the 80 font bytes, the timers and `drawFlag`.
`V` and `key` are not assigned. -/
def initilize (s : Chip8) : Chip8 :=
  let s1 := { s with pc := 0x200, opcode := 0, I := 0, sp := 0 }
  let s2 := { s1 with memory := fun i => if i < 4096 then 0 else s1.memory i }
  let s3 := { s2 with stack := fun i => if i < 16 then 0 else s2.stack i }
  let s4 := clearScreen s3
  let s5 := { s4 with
    memory := fun i => if i < 80 then chip8Fontset.getD i 0 else s4.memory i }
  { s5 with delayTimer := 0, soundTimer := 0, drawFlag := true }

/-- The read loop of `loadApplication` from byte number `i` on: `memory[i + 512] = c`,
`i++`, and `break` once `i + 512 >= 4096`; the end of the list is the read error that
ends the loop. -/
def loadLoop : List Nat → Nat → (Nat → Nat) → Except Fault (Nat → Nat)
  | [], _, m => pure m
  | c :: rest, i, m => do
    let m1 ← store m 4096 (i + 512) c
    if i + 1 + 512 ≥ 4096 then pure m1 else loadLoop rest (i + 1) m1

/-- The function `loadApplication` on the bytes `rom` of the file. -/
def loadApplication (rom : List Nat) (s : Chip8) : Except Fault Chip8 := do
  let m ← loadLoop rom 0 s.memory
  pure { s with memory := m }

/-- The function `render` as far as the state goes: `drawFlag = false`. -/
def render (s : Chip8) : Chip8 :=
  { s with drawFlag := false }

/-- The package-level variables at program start: Go zero values. -/
def zeroState : Chip8 :=
  { opcode := 0, memory := fun _ => 0, V := fun _ => 0, I := 0, pc := 0, gfx := fun _ => 0,
    delayTimer := 0, soundTimer := 0, stack := fun _ => 0, sp := 0, key := fun _ => 0,
    drawFlag := false }

/-- The states `main` reaches with the program image `rom`: `initilize()` and
`loadApplication` on the zero state, then `render()` and completed calls of `cycle`. -/
inductive Reachable (rom : List Nat) : Chip8 → Prop
  | boot (s : Chip8) : loadApplication rom (initilize zeroState) = .ok s → Reachable rom s
  | rendered (s : Chip8) : Reachable rom s → Reachable rom (render s)
  | step (rnd : Nat) (s s1 : Chip8) : Reachable rom s → cycle rnd s = .ok s1 →
      Reachable rom s1

/-- Every one of the 64 * 32 display cells is 0 or 1. -/
def SingleBit (g : Nat → Nat) : Prop :=
  ∀ i, i < 2048 → g i = 0 ∨ g i = 1

/-- The 16-bit word that `cycle` fetches at `pc`. -/
def fetched (s : Chip8) : Nat :=
  (s.memory s.pc <<< 8) % 65536 ||| s.memory ((s.pc + 1) % 65536)

/-! ## Arrays -/

@[simp] theorem upd_apply (a : Nat → Nat) (i v j : Nat) :
    upd a i v j = if j = i then v else a j := rfl

/-! ## Decoding lemmas -/

theorem and_nibble_shl (w k : Nat) : w &&& (15 <<< k) = ((w >>> k) % 16) <<< k := by
  apply Nat.eq_of_testBit_eq
  intro i
  have h15 : (15 : Nat) = 2 ^ 4 - 1 := by norm_num
  have h16 : (16 : Nat) = 2 ^ 4 := by norm_num
  rw [h16, h15]
  simp only [Nat.testBit_and, Nat.testBit_shiftLeft, Nat.testBit_shiftRight,
    Nat.testBit_two_pow_sub_one, Nat.testBit_mod_two_pow]
  by_cases h : k ≤ i
  · simp [h]
    rw [Bool.and_comm]
  · simp [h]

theorem and_F000 (w : Nat) : w &&& 0xF000 = (w / 4096 % 16) * 4096 := by
  have := and_nibble_shl w 12
  simpa [Nat.shiftLeft_eq, Nat.shiftRight_eq_div_pow] using this

theorem and_0F00 (w : Nat) : w &&& 0x0F00 = (w / 256 % 16) * 256 := by
  have := and_nibble_shl w 8
  simpa [Nat.shiftLeft_eq, Nat.shiftRight_eq_div_pow] using this

theorem and_00F0 (w : Nat) : w &&& 0x00F0 = (w / 16 % 16) * 16 := by
  have := and_nibble_shl w 4
  simpa [Nat.shiftLeft_eq, Nat.shiftRight_eq_div_pow] using this

theorem and_0FFF (w : Nat) : w &&& 0x0FFF = w % 4096 :=
  Nat.and_pow_two_sub_one_eq_mod w 12

theorem and_00FF (w : Nat) : w &&& 0x00FF = w % 256 :=
  Nat.and_pow_two_sub_one_eq_mod w 8

theorem and_000F (w : Nat) : w &&& 0x000F = w % 16 :=
  Nat.and_pow_two_sub_one_eq_mod w 4

theorem opX_eq (s : Chip8) : opX s = s.opcode / 256 % 16 := by
  unfold opX
  rw [and_0F00, Nat.shiftRight_eq_div_pow]
  omega

theorem opY_eq (s : Chip8) : opY s = s.opcode / 16 % 16 := by
  unfold opY
  rw [and_00F0, Nat.shiftRight_eq_div_pow]
  omega

theorem opNN_eq (s : Chip8) : opNN s = s.opcode % 256 := and_00FF _

theorem opNNN_eq (s : Chip8) : opNNN s = s.opcode % 4096 := and_0FFF _

theorem opX_lt (s : Chip8) : opX s < 16 := by
  rw [opX_eq]
  omega

theorem opY_lt (s : Chip8) : opY s < 16 := by
  rw [opY_eq]
  omega

/-! ## Fetch -/

theorem fetch_ok (s : Chip8) (hpc : s.pc + 1 < 4096) :
    fetch s = .ok { s with opcode := fetched s } := by
  have h1 : s.pc < 4096 := by omega
  have h2 : (s.pc + 1) % 65536 < 4096 := by omega
  simp [fetch, load, h1, h2, fetched, bind, Except.bind, pure, Except.pure]

theorem fetch_error (s : Chip8) (hpc : ¬ (s.pc + 1) % 65536 < 4096 ∨ ¬ s.pc < 4096) :
    fetch s = .error .indexOutOfRange := by
  unfold fetch load
  by_cases h1 : s.pc < 4096
  · have h2 : ¬ (s.pc + 1) % 65536 < 4096 := by tauto
    simp [h1, h2, bind, Except.bind]
  · simp [h1, bind, Except.bind]

theorem cycle_eq (rnd : Nat) (s : Chip8) (hpc : s.pc + 1 < 4096) :
    cycle rnd s =
      (match dispatch rnd { s with opcode := fetched s } with
        | .ok (.fallThrough s2) => .ok (updateTimers s2)
        | .ok (.returned s2) => .ok s2
        | .error e => .error e) := by
  unfold cycle
  rw [fetch_ok s hpc]
  simp only [bind, Except.bind, pure, Except.pure]
  cases dispatch rnd { s with opcode := fetched s } with
  | error e => rfl
  | ok f => cases f <;> rfl

/-! ## Frame of `updateTimers` and of `goToNextInstruction` -/

@[simp] theorem updateTimers_opcode (s : Chip8) : (updateTimers s).opcode = s.opcode := by
  unfold updateTimers; dsimp only; split <;> split <;> rfl

@[simp] theorem updateTimers_memory (s : Chip8) : (updateTimers s).memory = s.memory := by
  unfold updateTimers; dsimp only; split <;> split <;> rfl

@[simp] theorem updateTimers_V (s : Chip8) : (updateTimers s).V = s.V := by
  unfold updateTimers; dsimp only; split <;> split <;> rfl

@[simp] theorem updateTimers_I (s : Chip8) : (updateTimers s).I = s.I := by
  unfold updateTimers; dsimp only; split <;> split <;> rfl

@[simp] theorem updateTimers_pc (s : Chip8) : (updateTimers s).pc = s.pc := by
  unfold updateTimers; dsimp only; split <;> split <;> rfl

@[simp] theorem updateTimers_gfx (s : Chip8) : (updateTimers s).gfx = s.gfx := by
  unfold updateTimers; dsimp only; split <;> split <;> rfl

@[simp] theorem updateTimers_stack (s : Chip8) : (updateTimers s).stack = s.stack := by
  unfold updateTimers; dsimp only; split <;> split <;> rfl

@[simp] theorem updateTimers_sp (s : Chip8) : (updateTimers s).sp = s.sp := by
  unfold updateTimers; dsimp only; split <;> split <;> rfl

@[simp] theorem updateTimers_key (s : Chip8) : (updateTimers s).key = s.key := by
  unfold updateTimers; dsimp only; split <;> split <;> rfl

@[simp] theorem updateTimers_drawFlag (s : Chip8) : (updateTimers s).drawFlag = s.drawFlag := by
  unfold updateTimers; dsimp only; split <;> split <;> rfl

theorem updateTimers_delayTimer (s : Chip8) :
    (updateTimers s).delayTimer = s.delayTimer - 1 := by
  unfold updateTimers; dsimp only; split <;> split <;> simp_all

theorem updateTimers_soundTimer (s : Chip8) :
    (updateTimers s).soundTimer = s.soundTimer - 1 := by
  unfold updateTimers; dsimp only; split <;> split <;> simp_all

theorem cycle_fallThrough (rnd : Nat) (s s2 : Chip8) (hpc : s.pc + 1 < 4096)
    (h : dispatch rnd { s with opcode := fetched s } = .ok (.fallThrough s2)) :
    cycle rnd s = .ok (updateTimers s2) := by
  rw [cycle_eq rnd s hpc, h]

theorem cycle_returned (rnd : Nat) (s s2 : Chip8) (hpc : s.pc + 1 < 4096)
    (h : dispatch rnd { s with opcode := fetched s } = .ok (.returned s2)) :
    cycle rnd s = .ok s2 := by
  rw [cycle_eq rnd s hpc, h]

theorem cycle_error (rnd : Nat) (s : Chip8) (e : Fault) (hpc : s.pc + 1 < 4096)
    (h : dispatch rnd { s with opcode := fetched s } = .error e) :
    cycle rnd s = .error e := by
  rw [cycle_eq rnd s hpc, h]

/-! ## Sample states -/

/-- A memory image holding the instruction bytes `hi`, `lo` at `0x200`, `0x201`. -/
def progAt200 (hi lo : Nat) : Nat → Nat :=
  fun a => if a = 0x200 then hi else if a = 0x201 then lo else 0

/-- A state about to run the instruction `hi lo` at `0x200`, with register file `v`. -/
def sampleState (hi lo : Nat) (v : Nat → Nat) : Chip8 :=
  { opcode := 0, memory := progAt200 hi lo, V := v, I := 0, pc := 0x200,
    gfx := fun _ => 0, delayTimer := 0, soundTimer := 0, stack := fun _ => 0, sp := 0,
    key := fun _ => 0, drawFlag := false }

/-- A state about to run `DXYN` with x = 0, y = 1 and N = `n` at `0x200`, with `V0 = vx`,
`V1 = vy`, `I = 0x300`, the sprite byte `row` at `0x300` and a blank display. -/
def spriteState (vx vy n row : Nat) : Chip8 :=
  { opcode := 0,
    memory := fun a => if a = 0x200 then 0xD0 else if a = 0x201 then 0x10 + n
      else if a = 0x300 then row else 0,
    V := fun i => if i = 0 then vx else if i = 1 then vy else 0,
    I := 0x300, pc := 0x200, gfx := fun _ => 0, delayTimer := 0, soundTimer := 0,
    stack := fun _ => 0, sp := 0, key := fun _ => 0, drawFlag := false }

/-- A state about to run `2300` (call `0x300`) at `0x200`, with `00EE` stored at `0x300`. -/
def callState : Chip8 :=
  { opcode := 0,
    memory := fun a => if a = 0x200 then 0x23 else if a = 0x301 then 0xEE else 0,
    V := fun _ => 0, I := 0, pc := 0x200, gfx := fun _ => 0, delayTimer := 0,
    soundTimer := 0, stack := fun _ => 0, sp := 0, key := fun _ => 0, drawFlag := false }

/-- The state `callState` with a full call stack (`sp = 16`). -/
def overflowState : Chip8 :=
  { callState with sp := 16 }

/-- A state about to run `00EE` at `0x200` with an empty call stack (`sp = 0`). -/
def underflowState : Chip8 :=
  sampleState 0x00 0xEE (fun _ => 0)

/-- The state `sampleState hi lo` with all registers 0, delay timer `d` and sound timer
`snd`. -/
def timedState (hi lo d snd : Nat) : Chip8 :=
  { sampleState hi lo (fun _ => 0) with delayTimer := d, soundTimer := snd }

/-- A state about to run `F30A` (wait for a key into `V3`) at `0x200` with keys 2 and 9
pressed. -/
def keysState : Chip8 :=
  { sampleState 0xF3 0x0A (fun _ => 0) with
    key := fun i => if i = 2 then 1 else if i = 9 then 1 else 0 }

/-- A state about to run `00E0` at `0x200` with display cell 5 lit and `drawFlag` false. -/
def litState : Chip8 :=
  { sampleState 0x00 0xE0 (fun _ => 0) with gfx := fun i => if i = 5 then 1 else 0 }

/-- The initialised machine with `F029` stored at `0x200` and `V0 = 10`. -/
def fontState : Chip8 :=
  { initilize zeroState with
    memory := upd (upd (initilize zeroState).memory 0x200 0xF0) 0x201 0x29,
    V := fun i => if i = 0 then 10 else 0 }

/-- A state about to run `F133` (BCD of `V1`) at `0x200` with `V1 = 254` and `I = 0x300`. -/
def bcdState : Chip8 :=
  { sampleState 0xF1 0x33 (fun i => if i = 1 then 254 else 0) with I := 0x300 }

/-- The two-byte program image `1FFF` (jump to `0xFFF`). -/
def jumpRom : List Nat := [0x1F, 0xFF]

/-- The machine after `initilize()` and `loadApplication` of `jumpRom`. -/
def jumpBoot : Chip8 :=
  { initilize zeroState with
    memory := upd (upd (initilize zeroState).memory 0x200 0x1F) 0x201 0xFF }

/-- The state `jumpBoot` after its first cycle has run the jump: `pc = 0xFFF`. -/
def jumpLanded : Chip8 :=
  { jumpBoot with opcode := 0x1FFF, pc := 0xFFF }

/-- The state `spriteState 250 3 2 0xFF` after the fetch of its word `D012`. -/
def fetchedSprite : Chip8 :=
  { spriteState 250 3 2 0xFF with opcode := 0xD012 }

/-- Register file with `V1 = a`, `V2 = b` and the other registers `0`. -/
def regs12 (a b : Nat) : Nat → Nat :=
  fun i => if i = 1 then a else if i = 2 then b else 0

/-- Register file with `V0 = a`, `VF = b` and the other registers `0`. -/
def regs0F (a b : Nat) : Nat → Nat :=
  fun i => if i = 0 then a else if i = 15 then b else 0

/-! ## Arithmetic instructions -/

theorem dispatch_8 (rnd : Nat) (s : Chip8) (h : s.opcode / 4096 % 16 = 8) :
    dispatch rnd s = family8 s := by
  have h8 : s.opcode &&& 0xF000 = 0x8000 := by rw [and_F000, h]
  simp [dispatch, h8]

theorem exec_8XY4 (rnd : Nat) (s : Chip8) (x y : Nat) (hx : x < 16) (hy : y < 16)
    (hop : s.opcode = 0x8004 + x * 256 + y * 16) :
    dispatch rnd s =
      let v1 := upd s.V 0xF (if s.V y > sub8 0xFF (s.V x) then 1 else 0)
      .ok (.fallThrough (goToNextInstruction
        { s with V := upd v1 x ((v1 x + v1 y) % 256) })) := by
  have hX : opX s = x := by rw [opX_eq]; omega
  have hY : opY s = y := by rw [opY_eq]; omega
  have hlow : s.opcode % 16 = 4 := by omega
  rw [dispatch_8 rnd s (by omega)]
  simp [family8, case8XY4, and_000F, hlow, hX, hY, load, store, hx, hy, bind, Except.bind, pure,
    Except.pure]

/-- C3 (amended). Add-registers `8XY4`, for `x != 0xF`: the carry flag is written to `VF`
first and the sum is taken afterwards. For `y != 0xF` the result is
`V[x] = (old V[x] + old V[y]) mod 256`; for `y = 0xF` the operand is the flag just written,
`V[x] = (old V[x] + carry) mod 256`. In both cases `VF` is the carry of
`old V[x] + old V[y]` and `pc` advances by 2. The registers `V[x]`, `V[y]` hold bytes and
`pc` is fetchable. -/
theorem add_registers_8XY4 (rnd : Nat) (s : Chip8) (x y : Nat) (hx : x < 15) (hy : y < 16)
    (hpc : s.pc + 1 < 4096) (hw : fetched s = 0x8004 + x * 256 + y * 16)
    (hVx : s.V x < 256) (hVy : s.V y < 256) :
    ∃ s1, cycle rnd s = .ok s1 ∧
      s1.V x = (s.V x + (if y = 15 then (if s.V x + s.V y > 255 then 1 else 0) else s.V y)) % 256 ∧
      s1.V 15 = (if s.V x + s.V y > 255 then 1 else 0) ∧
      s1.pc = s.pc + 2 := by
  have hxF : x ≠ 15 := by omega
  have hFx : (15 : Nat) ≠ x := by omega
  have hcarry : (s.V y > sub8 0xFF (s.V x)) ↔ s.V x + s.V y > 255 := by
    unfold sub8; omega
  refine ⟨_, cycle_fallThrough rnd s _ hpc (exec_8XY4 rnd _ x y (by omega) hy hw), ?_, ?_, ?_⟩
  · by_cases hyF : y = 15
    · subst hyF
      simp [goToNextInstruction, hxF, hcarry]
    · simp [goToNextInstruction, hxF, hyF, hcarry]
  · simp [goToNextInstruction, hFx, hcarry]
  · simp [goToNextInstruction]
    omega

theorem add_registers_8XY4_witness :
    ∃ s1, cycle 0 (sampleState 0x81 0x24 (regs12 250 10)) = .ok s1 ∧
      s1.V 1 = 4 ∧ s1.V 15 = 1 ∧ s1.pc = 0x202 :=
  add_registers_8XY4 0 (sampleState 0x81 0x24 (regs12 250 10)) 1 2 (by decide) (by decide)
    (by decide) (by decide) (by decide) (by decide)

/-- C3 (counterexample). With `V0 = 10`, `VF = 20` the word `0x80F4` (x = 0, y = 0xF)
leaves `V0 = 10`, not `(10 + 20) mod 256 = 30`. -/
theorem add_registers_8XY4_yF_counterexample :
    ∃ s1, cycle 0 (sampleState 0x80 0xF4 (regs0F 10 20)) = .ok s1 ∧ s1.V 0 = 10 ∧
      s1.V 0 ≠ ((sampleState 0x80 0xF4 (regs0F 10 20)).V 0 +
        (sampleState 0x80 0xF4 (regs0F 10 20)).V 15) % 256 :=
  ⟨_, rfl, by decide, by decide⟩

theorem exec_8XY5 (rnd : Nat) (s : Chip8) (x y : Nat) (hx : x < 16) (hy : y < 16)
    (hop : s.opcode = 0x8005 + x * 256 + y * 16) :
    dispatch rnd s =
      let v1 := upd s.V 0xF (if s.V y > s.V x then 0 else 1)
      .ok (.fallThrough (goToNextInstruction
        { s with V := upd v1 x (sub8 (v1 x) (v1 y)) })) := by
  have hX : opX s = x := by rw [opX_eq]; omega
  have hY : opY s = y := by rw [opY_eq]; omega
  have hlow : s.opcode % 16 = 5 := by omega
  rw [dispatch_8 rnd s (by omega)]
  simp [family8, case8XY5, and_000F, hlow, hX, hY, load, store, hx, hy, bind, Except.bind, pure,
    Except.pure]

/-- C4 (amended). Subtract `8XY5`, for `x != 0xF`: the no-borrow flag is written to `VF`
first and the difference is taken afterwards. For `y != 0xF` the result is
`V[x] = (old V[x] - old V[y]) mod 256`; for `y = 0xF` the operand is the flag just written,
`V[x] = (old V[x] - flag) mod 256`. In both cases `VF` is 0 if `old V[y] > old V[x]` and 1
otherwise, and `pc` advances by 2. The registers `V[x]`, `V[y]` hold bytes and `pc` is
fetchable. -/
theorem subtract_8XY5 (rnd : Nat) (s : Chip8) (x y : Nat) (hx : x < 15) (hy : y < 16)
    (hpc : s.pc + 1 < 4096) (hw : fetched s = 0x8005 + x * 256 + y * 16)
    (hVx : s.V x < 256) (hVy : s.V y < 256) :
    ∃ s1, cycle rnd s = .ok s1 ∧
      (s1.V x : Int) = ((s.V x : Int) -
        (if y = 15 then (if s.V y > s.V x then 0 else 1) else (s.V y : Int))) % 256 ∧
      s1.V 15 = (if s.V y > s.V x then 0 else 1) ∧
      s1.pc = s.pc + 2 := by
  have hxF : x ≠ 15 := by omega
  have hFx : (15 : Nat) ≠ x := by omega
  refine ⟨_, cycle_fallThrough rnd s _ hpc (exec_8XY5 rnd _ x y (by omega) hy hw), ?_, ?_, ?_⟩
  · by_cases hyF : y = 15
    · subst hyF
      simp only [goToNextInstruction, updateTimers_V, upd_apply, if_true, hxF, if_false, sub8]
      split <;> omega
    · simp only [goToNextInstruction, updateTimers_V, upd_apply, if_true, hxF, hyF, if_false,
        sub8]
      omega
  · simp [goToNextInstruction, hFx]
  · simp [goToNextInstruction]
    omega

theorem subtract_8XY5_witness :
    ∃ s1, cycle 0 (sampleState 0x81 0x25 (regs12 5 10)) = .ok s1 ∧
      (s1.V 1 : Int) = 251 ∧ s1.V 15 = 0 ∧ s1.pc = 0x202 :=
  subtract_8XY5 0 (sampleState 0x81 0x25 (regs12 5 10)) 1 2 (by decide) (by decide)
    (by decide) (by decide) (by decide) (by decide)

/-- C4 (counterexample). With `V0 = 10`, `VF = 5` the word `0x80F5` (x = 0, y = 0xF)
leaves `V0 = 9`, not `(10 - 5) mod 256 = 5`. -/
theorem subtract_8XY5_yF_counterexample :
    ∃ s1, cycle 0 (sampleState 0x80 0xF5 (regs0F 10 5)) = .ok s1 ∧ s1.V 0 = 9 ∧
      (s1.V 0 : Int) ≠ (((sampleState 0x80 0xF5 (regs0F 10 5)).V 0 : Int) -
        (sampleState 0x80 0xF5 (regs0F 10 5)).V 15) % 256 :=
  ⟨_, rfl, by decide, by decide⟩

/-! ## Draw-sprite on concrete inputs -/

/-- C1 (evaluation at the failing input). `D011` with `V0 = 63`, `V1 = 31`, sprite row
`0xFF` and a blank display: the claim places the leftmost pixel at cell
`31 * 64 + 63 = 2047` and the wrapped columns at cells `1984 .. 1990`; the code toggles the
single cell `(63 + 31 * 64) mod 256 = 255` and leaves those cells 0. -/
theorem drawSprite_wraparound_eval :
    ∃ s1, cycle 0 (spriteState 63 31 1 0xFF) = .ok s1 ∧
      s1.gfx 255 = 1 ∧ s1.gfx 2047 = 0 ∧ s1.gfx 1984 = 0 ∧ s1.gfx 1990 = 0 :=
  ⟨_, rfl, by decide, by decide, by decide, by decide⟩

/-- C2 (evaluation at the failing input). `D011` with `V0 = 0`, `V1 = 0`, sprite row `0xFF`
and a blank display: after one cycle only cell 0 is set, cells `1 .. 7` are still 0, and
`VF = 0`. -/
theorem drawSprite_single_row_eval :
    ∃ s1, cycle 0 (spriteState 0 0 1 0xFF) = .ok s1 ∧
      s1.gfx 0 = 1 ∧ s1.gfx 1 = 0 ∧ s1.gfx 2 = 0 ∧ s1.gfx 3 = 0 ∧ s1.gfx 4 = 0 ∧
      s1.gfx 5 = 0 ∧ s1.gfx 6 = 0 ∧ s1.gfx 7 = 0 ∧ s1.V 15 = 0 :=
  ⟨_, rfl, by decide, by decide, by decide, by decide, by decide, by decide, by decide,
    by decide, by decide⟩

/-! ## Call and return -/

theorem and_F000_of_lt (w : Nat) (h : w < 4096) : w &&& 0xF000 = 0 := by
  rw [and_F000]
  omega

theorem exec_2NNN (rnd : Nat) (s : Chip8) (nnn : Nat) (hnnn : nnn < 4096)
    (hop : s.opcode = 0x2000 + nnn) :
    dispatch rnd s =
      (match store s.stack 16 s.sp s.pc with
        | .ok st => .ok (.fallThrough { s with stack := st, sp := (s.sp + 1) % 65536, pc := nnn })
        | .error e => .error e) := by
  have h2 : s.opcode &&& 0xF000 = 0x2000 := by rw [and_F000]; omega
  have h3 : opNNN s = nnn := by rw [opNNN_eq]; omega
  simp only [dispatch, h2, h3, call, bind, Except.bind, pure, Except.pure]
  cases store s.stack 16 s.sp s.pc <;> simp

theorem dispatch_0 (rnd : Nat) (s : Chip8) (h : s.opcode / 4096 % 16 = 0) :
    dispatch rnd s = family0 s := by
  have h0 : s.opcode &&& 0xF000 = 0x0000 := by rw [and_F000, h]
  simp [dispatch, h0]

theorem exec_00EE (rnd : Nat) (s : Chip8) (hop : s.opcode = 0x00EE) :
    dispatch rnd s =
      (match load s.stack 16 ((s.sp + 65535) % 65536) with
        | .ok ret => .ok (.fallThrough (goToNextInstruction
            { s with sp := (s.sp + 65535) % 65536, pc := ret }))
        | .error e => .error e) := by
  have h1 : s.opcode &&& 0x000F = 0x000E := by rw [and_000F, hop]
  rw [dispatch_0 rnd s (by rw [hop])]
  simp [family0, case00EE, h1, bind, Except.bind, pure, Except.pure]
  cases load s.stack 16 ((s.sp + 65535) % 65536) <;> simp

/-- C5. Call/return round trip: from a state with `sp <= 15` whose fetched word is `2NNN`
and whose memory holds `0x00EE` at `NNN`, `NNN + 1`, two cycles complete and leave
`pc = old pc + 2` and `sp = old sp`. -/
theorem call_return_round_trip (rnd1 rnd2 : Nat) (s : Chip8) (nnn : Nat)
    (hpc : s.pc + 1 < 4096) (hsp : s.sp ≤ 15) (hnnn : nnn + 1 ≤ 4095)
    (hw : fetched s = 0x2000 + nnn)
    (hret0 : s.memory nnn = 0x00) (hret1 : s.memory (nnn + 1) = 0xEE) :
    ∃ s1 s2, cycle rnd1 s = .ok s1 ∧ cycle rnd2 s1 = .ok s2 ∧
      s2.pc = s.pc + 2 ∧ s2.sp = s.sp := by
  have hcall := exec_2NNN rnd1 { s with opcode := fetched s } nnn (by omega) hw
  simp only [store, (by omega : s.sp < 16), if_true] at hcall
  have h1 := cycle_fallThrough rnd1 s _ hpc hcall
  generalize hs1 : updateTimers
      { s with opcode := fetched s, stack := upd s.stack s.sp s.pc,
               sp := (s.sp + 1) % 65536, pc := nnn } = s1 at h1
  have hm1 : s1.memory = s.memory := by rw [← hs1]; simp
  have hp1 : s1.pc = nnn := by rw [← hs1]; simp
  have hq1 : s1.sp = (s.sp + 1) % 65536 := by rw [← hs1]; simp
  have hk1 : s1.stack = upd s.stack s.sp s.pc := by rw [← hs1]; simp
  have hfetch : fetched s1 = 0x00EE := by
    have hm : (nnn + 1) % 65536 = nnn + 1 := by omega
    simp [fetched, hm1, hp1, hm, hret0, hret1]
  have hsp1 : ((s.sp + 1) % 65536 + 65535) % 65536 = s.sp := by omega
  have hld : load s1.stack 16 ((s1.sp + 65535) % 65536) = .ok s.pc := by
    rw [hq1, hk1, hsp1]
    simp [load, (by omega : s.sp < 16)]
  have hret : dispatch rnd2 { s1 with opcode := fetched s1 } =
      .ok (.fallThrough (goToNextInstruction
        { s1 with opcode := fetched s1, sp := (s1.sp + 65535) % 65536, pc := s.pc })) := by
    rw [exec_00EE rnd2 _ hfetch]
    dsimp only
    rw [hld]
  have h2 := cycle_fallThrough rnd2 s1 _ (by rw [hp1]; omega) hret
  refine ⟨s1, _, h1, h2, ?_, ?_⟩
  · simp [goToNextInstruction]
    omega
  · simp only [goToNextInstruction, updateTimers_sp]
    rw [hq1, hsp1]

theorem call_return_round_trip_witness :
    ∃ s1 s2, cycle 0 callState = .ok s1 ∧ cycle 0 s1 = .ok s2 ∧
      s2.pc = 0x202 ∧ s2.sp = 0 :=
  call_return_round_trip 0 0 callState 0x300 (by decide) (by decide) (by decide) (by decide)
    (by decide) (by decide)

/-! ## Loops -/

theorem foldlM_invariant {α β : Type} (P : β → Prop) (f : β → α → Except Fault β)
    (hf : ∀ b a b1, P b → f b a = .ok b1 → P b1) :
    ∀ (l : List α) (b b1 : β), P b → l.foldlM f b = .ok b1 → P b1
  | [], b, b1, hb, h => by
      simp only [List.foldlM_nil, pure, Except.pure, Except.ok.injEq] at h
      subst h
      exact hb
  | a :: l, b, b1, hb, h => by
      simp only [List.foldlM_cons, bind, Except.bind] at h
      cases hfa : f b a with
      | error e => simp [hfa] at h
      | ok b2 =>
        rw [hfa] at h
        exact foldlM_invariant P f hf l b2 b1 (hf b a b2 hb hfa) h

/-! ## Frame lemmas: which cases touch the stack, the keypad and the display -/

theorem frame_refl (s : Chip8) : Frame s s := ⟨⟨rfl, rfl, rfl⟩, rfl⟩

theorem frame_trans {s s1 s2 : Chip8} (h1 : Frame s s1) (h2 : Frame s1 s2) : Frame s s2 :=
  ⟨⟨h2.1.1.trans h1.1.1, h2.1.2.1.trans h1.1.2.1, h2.1.2.2.trans h1.1.2.2⟩,
    h2.2.trans h1.2⟩

theorem stackFrame_refl (s : Chip8) : StackFrame s s := ⟨rfl, rfl, rfl⟩

theorem stackFrame_trans {s s1 s2 : Chip8} (h1 : StackFrame s s1) (h2 : StackFrame s1 s2) :
    StackFrame s s2 :=
  ⟨h2.1.trans h1.1, h2.2.1.trans h1.2.1, h2.2.2.trans h1.2.2⟩

theorem goToNextInstruction_frame (s : Chip8) : Frame s (goToNextInstruction s) :=
  ⟨⟨rfl, rfl, rfl⟩, rfl⟩

theorem skipNextInstruction_frame (s : Chip8) : Frame s (skipNextInstruction s) :=
  ⟨⟨rfl, rfl, rfl⟩, rfl⟩

theorem updateTimers_frame (s : Chip8) : Frame s (updateTimers s) :=
  ⟨⟨updateTimers_sp s, updateTimers_stack s, updateTimers_key s⟩, updateTimers_gfx s⟩

theorem bind_ok {α β : Type} (r : Except Fault α) (f : α → Except Fault β) (b : β) :
    (r >>= f) = .ok b ↔ ∃ a, r = .ok a ∧ f a = .ok b := by
  cases r <;> simp [bind, Except.bind]

theorem pure_ok {α : Type} (a b : α) : (pure a : Except Fault α) = .ok b ↔ a = b := by
  simp [pure, Except.pure]

theorem load_ok (a : Nat → Nat) (n i v : Nat) : load a n i = .ok v ↔ i < n ∧ a i = v := by
  unfold load
  split_ifs with h <;> simp [h]

theorem store_ok (a : Nat → Nat) (n i v : Nat) (m : Nat → Nat) :
    store a n i v = .ok m ↔ i < n ∧ upd a i v = m := by
  unfold store
  split_ifs with h <;> simp [h]

theorem case3XNN_frame (s s1 : Chip8) (h : case3XNN s = .ok s1) : Frame s s1 := by
  unfold case3XNN at h
  simp only [bind_ok, load_ok, store_ok, pure_ok] at h
  repeat (obtain ⟨_, ⟨_, rfl⟩, h⟩ := h)
  first
    | exact ⟨⟨rfl, rfl, rfl⟩, rfl⟩
    | (split_ifs <;> exact ⟨⟨rfl, rfl, rfl⟩, rfl⟩)

theorem case4XNN_frame (s s1 : Chip8) (h : case4XNN s = .ok s1) : Frame s s1 := by
  unfold case4XNN at h
  simp only [bind_ok, load_ok, store_ok, pure_ok] at h
  repeat (obtain ⟨_, ⟨_, rfl⟩, h⟩ := h)
  first
    | exact ⟨⟨rfl, rfl, rfl⟩, rfl⟩
    | (split_ifs <;> exact ⟨⟨rfl, rfl, rfl⟩, rfl⟩)

theorem case5XY0_frame (s s1 : Chip8) (h : case5XY0 s = .ok s1) : Frame s s1 := by
  unfold case5XY0 at h
  simp only [bind_ok, load_ok, store_ok, pure_ok] at h
  repeat (obtain ⟨_, ⟨_, rfl⟩, h⟩ := h)
  first
    | exact ⟨⟨rfl, rfl, rfl⟩, rfl⟩
    | (split_ifs <;> exact ⟨⟨rfl, rfl, rfl⟩, rfl⟩)

theorem case6XNN_frame (s s1 : Chip8) (h : case6XNN s = .ok s1) : Frame s s1 := by
  unfold case6XNN at h
  simp only [bind_ok, load_ok, store_ok, pure_ok] at h
  repeat (obtain ⟨_, ⟨_, rfl⟩, h⟩ := h)
  first
    | exact ⟨⟨rfl, rfl, rfl⟩, rfl⟩
    | (split_ifs <;> exact ⟨⟨rfl, rfl, rfl⟩, rfl⟩)

theorem case7XNN_frame (s s1 : Chip8) (h : case7XNN s = .ok s1) : Frame s s1 := by
  unfold case7XNN at h
  simp only [bind_ok, load_ok, store_ok, pure_ok] at h
  repeat (obtain ⟨_, ⟨_, rfl⟩, h⟩ := h)
  first
    | exact ⟨⟨rfl, rfl, rfl⟩, rfl⟩
    | (split_ifs <;> exact ⟨⟨rfl, rfl, rfl⟩, rfl⟩)

theorem case8XY0_frame (s s1 : Chip8) (h : case8XY0 s = .ok s1) : Frame s s1 := by
  unfold case8XY0 at h
  simp only [bind_ok, load_ok, store_ok, pure_ok] at h
  repeat (obtain ⟨_, ⟨_, rfl⟩, h⟩ := h)
  first
    | exact ⟨⟨rfl, rfl, rfl⟩, rfl⟩
    | (split_ifs <;> exact ⟨⟨rfl, rfl, rfl⟩, rfl⟩)

theorem case8XY1_frame (s s1 : Chip8) (h : case8XY1 s = .ok s1) : Frame s s1 := by
  unfold case8XY1 at h
  simp only [bind_ok, load_ok, store_ok, pure_ok] at h
  repeat (obtain ⟨_, ⟨_, rfl⟩, h⟩ := h)
  first
    | exact ⟨⟨rfl, rfl, rfl⟩, rfl⟩
    | (split_ifs <;> exact ⟨⟨rfl, rfl, rfl⟩, rfl⟩)

theorem case8XY2_frame (s s1 : Chip8) (h : case8XY2 s = .ok s1) : Frame s s1 := by
  unfold case8XY2 at h
  simp only [bind_ok, load_ok, store_ok, pure_ok] at h
  repeat (obtain ⟨_, ⟨_, rfl⟩, h⟩ := h)
  first
    | exact ⟨⟨rfl, rfl, rfl⟩, rfl⟩
    | (split_ifs <;> exact ⟨⟨rfl, rfl, rfl⟩, rfl⟩)

theorem case8XY3_frame (s s1 : Chip8) (h : case8XY3 s = .ok s1) : Frame s s1 := by
  unfold case8XY3 at h
  simp only [bind_ok, load_ok, store_ok, pure_ok] at h
  repeat (obtain ⟨_, ⟨_, rfl⟩, h⟩ := h)
  first
    | exact ⟨⟨rfl, rfl, rfl⟩, rfl⟩
    | (split_ifs <;> exact ⟨⟨rfl, rfl, rfl⟩, rfl⟩)

theorem case8XY4_frame (s s1 : Chip8) (h : case8XY4 s = .ok s1) : Frame s s1 := by
  unfold case8XY4 at h
  simp only [bind_ok, load_ok, store_ok, pure_ok] at h
  repeat (obtain ⟨_, ⟨_, rfl⟩, h⟩ := h)
  first
    | exact ⟨⟨rfl, rfl, rfl⟩, rfl⟩
    | (split_ifs <;> exact ⟨⟨rfl, rfl, rfl⟩, rfl⟩)

theorem case8XY5_frame (s s1 : Chip8) (h : case8XY5 s = .ok s1) : Frame s s1 := by
  unfold case8XY5 at h
  simp only [bind_ok, load_ok, store_ok, pure_ok] at h
  repeat (obtain ⟨_, ⟨_, rfl⟩, h⟩ := h)
  first
    | exact ⟨⟨rfl, rfl, rfl⟩, rfl⟩
    | (split_ifs <;> exact ⟨⟨rfl, rfl, rfl⟩, rfl⟩)

theorem case8XY6_frame (s s1 : Chip8) (h : case8XY6 s = .ok s1) : Frame s s1 := by
  unfold case8XY6 at h
  simp only [bind_ok, load_ok, store_ok, pure_ok] at h
  repeat (obtain ⟨_, ⟨_, rfl⟩, h⟩ := h)
  first
    | exact ⟨⟨rfl, rfl, rfl⟩, rfl⟩
    | (split_ifs <;> exact ⟨⟨rfl, rfl, rfl⟩, rfl⟩)

theorem case8XY7_frame (s s1 : Chip8) (h : case8XY7 s = .ok s1) : Frame s s1 := by
  unfold case8XY7 at h
  simp only [bind_ok, load_ok, store_ok, pure_ok] at h
  repeat (obtain ⟨_, ⟨_, rfl⟩, h⟩ := h)
  first
    | exact ⟨⟨rfl, rfl, rfl⟩, rfl⟩
    | (split_ifs <;> exact ⟨⟨rfl, rfl, rfl⟩, rfl⟩)

theorem case8XYE_frame (s s1 : Chip8) (h : case8XYE s = .ok s1) : Frame s s1 := by
  unfold case8XYE at h
  simp only [bind_ok, load_ok, store_ok, pure_ok] at h
  repeat (obtain ⟨_, ⟨_, rfl⟩, h⟩ := h)
  first
    | exact ⟨⟨rfl, rfl, rfl⟩, rfl⟩
    | (split_ifs <;> exact ⟨⟨rfl, rfl, rfl⟩, rfl⟩)

theorem case9XY0_frame (s s1 : Chip8) (h : case9XY0 s = .ok s1) : Frame s s1 := by
  unfold case9XY0 at h
  simp only [bind_ok, load_ok, store_ok, pure_ok] at h
  repeat (obtain ⟨_, ⟨_, rfl⟩, h⟩ := h)
  first
    | exact ⟨⟨rfl, rfl, rfl⟩, rfl⟩
    | (split_ifs <;> exact ⟨⟨rfl, rfl, rfl⟩, rfl⟩)

theorem caseBNNN_frame (s s1 : Chip8) (h : caseBNNN s = .ok s1) : Frame s s1 := by
  unfold caseBNNN at h
  simp only [bind_ok, load_ok, store_ok, pure_ok] at h
  repeat (obtain ⟨_, ⟨_, rfl⟩, h⟩ := h)
  first
    | exact ⟨⟨rfl, rfl, rfl⟩, rfl⟩
    | (split_ifs <;> exact ⟨⟨rfl, rfl, rfl⟩, rfl⟩)

theorem caseEX9E_frame (s s1 : Chip8) (h : caseEX9E s = .ok s1) : Frame s s1 := by
  unfold caseEX9E at h
  simp only [bind_ok, load_ok, store_ok, pure_ok] at h
  repeat (obtain ⟨_, ⟨_, rfl⟩, h⟩ := h)
  first
    | exact ⟨⟨rfl, rfl, rfl⟩, rfl⟩
    | (split_ifs <;> exact ⟨⟨rfl, rfl, rfl⟩, rfl⟩)

theorem caseEXA1_frame (s s1 : Chip8) (h : caseEXA1 s = .ok s1) : Frame s s1 := by
  unfold caseEXA1 at h
  simp only [bind_ok, load_ok, store_ok, pure_ok] at h
  repeat (obtain ⟨_, ⟨_, rfl⟩, h⟩ := h)
  first
    | exact ⟨⟨rfl, rfl, rfl⟩, rfl⟩
    | (split_ifs <;> exact ⟨⟨rfl, rfl, rfl⟩, rfl⟩)

theorem caseFX07_frame (s s1 : Chip8) (h : caseFX07 s = .ok s1) : Frame s s1 := by
  unfold caseFX07 at h
  simp only [bind_ok, load_ok, store_ok, pure_ok] at h
  repeat (obtain ⟨_, ⟨_, rfl⟩, h⟩ := h)
  first
    | exact ⟨⟨rfl, rfl, rfl⟩, rfl⟩
    | (split_ifs <;> exact ⟨⟨rfl, rfl, rfl⟩, rfl⟩)

theorem caseFX15_frame (s s1 : Chip8) (h : caseFX15 s = .ok s1) : Frame s s1 := by
  unfold caseFX15 at h
  simp only [bind_ok, load_ok, store_ok, pure_ok] at h
  repeat (obtain ⟨_, ⟨_, rfl⟩, h⟩ := h)
  first
    | exact ⟨⟨rfl, rfl, rfl⟩, rfl⟩
    | (split_ifs <;> exact ⟨⟨rfl, rfl, rfl⟩, rfl⟩)

theorem caseFX18_frame (s s1 : Chip8) (h : caseFX18 s = .ok s1) : Frame s s1 := by
  unfold caseFX18 at h
  simp only [bind_ok, load_ok, store_ok, pure_ok] at h
  repeat (obtain ⟨_, ⟨_, rfl⟩, h⟩ := h)
  first
    | exact ⟨⟨rfl, rfl, rfl⟩, rfl⟩
    | (split_ifs <;> exact ⟨⟨rfl, rfl, rfl⟩, rfl⟩)

theorem caseFX1E_frame (s s1 : Chip8) (h : caseFX1E s = .ok s1) : Frame s s1 := by
  unfold caseFX1E at h
  simp only [bind_ok, load_ok, store_ok, pure_ok] at h
  repeat (obtain ⟨_, ⟨_, rfl⟩, h⟩ := h)
  first
    | exact ⟨⟨rfl, rfl, rfl⟩, rfl⟩
    | (split_ifs <;> exact ⟨⟨rfl, rfl, rfl⟩, rfl⟩)

theorem caseFX29_frame (s s1 : Chip8) (h : caseFX29 s = .ok s1) : Frame s s1 := by
  unfold caseFX29 at h
  simp only [bind_ok, load_ok, store_ok, pure_ok] at h
  repeat (obtain ⟨_, ⟨_, rfl⟩, h⟩ := h)
  first
    | exact ⟨⟨rfl, rfl, rfl⟩, rfl⟩
    | (split_ifs <;> exact ⟨⟨rfl, rfl, rfl⟩, rfl⟩)

theorem caseFX33_frame (s s1 : Chip8) (h : caseFX33 s = .ok s1) : Frame s s1 := by
  unfold caseFX33 at h
  simp only [bind_ok, load_ok, store_ok, pure_ok] at h
  repeat (obtain ⟨_, ⟨_, rfl⟩, h⟩ := h)
  first
    | exact ⟨⟨rfl, rfl, rfl⟩, rfl⟩
    | (split_ifs <;> exact ⟨⟨rfl, rfl, rfl⟩, rfl⟩)

theorem caseCXNN_frame (rnd : Nat) (s s1 : Chip8) (h : caseCXNN rnd s = .ok s1) :
    Frame s s1 := by
  unfold caseCXNN at h
  simp only [store, bind, Except.bind, pure, Except.pure] at h
  split_ifs at h
  simp only [Except.ok.injEq] at h
  subst h
  exact ⟨⟨rfl, rfl, rfl⟩, rfl⟩

theorem caseANNN_frame (s : Chip8) : Frame s (caseANNN s) := ⟨⟨rfl, rfl, rfl⟩, rfl⟩

theorem case00E0_stackFrame (s : Chip8) : StackFrame s (case00E0 s) := ⟨rfl, rfl, rfl⟩

theorem jump_frame (address : Nat) (s : Chip8) : Frame s (jump address s) :=
  ⟨⟨rfl, rfl, rfl⟩, rfl⟩


theorem storeRegStep_frame (s s1 : Chip8) (i : Nat) (h : storeRegStep s i = .ok s1) :
    Frame s s1 := by
  unfold storeRegStep at h
  simp only [bind_ok, load_ok, store_ok, pure_ok] at h
  repeat (obtain ⟨_, ⟨_, rfl⟩, h⟩ := h)
  exact ⟨⟨rfl, rfl, rfl⟩, rfl⟩

theorem loadRegStep_frame (s s1 : Chip8) (i : Nat) (h : loadRegStep s i = .ok s1) :
    Frame s s1 := by
  unfold loadRegStep at h
  simp only [bind_ok, load_ok, store_ok, pure_ok] at h
  repeat (obtain ⟨_, ⟨_, rfl⟩, h⟩ := h)
  exact ⟨⟨rfl, rfl, rfl⟩, rfl⟩

theorem caseFX55_frame (s s1 : Chip8) (h : caseFX55 s = .ok s1) : Frame s s1 := by
  unfold caseFX55 at h
  simp only [bind_ok, pure_ok] at h
  obtain ⟨s2, hfold, rfl⟩ := h
  exact foldlM_invariant (fun t => Frame s t) storeRegStep
    (fun b a b1 hb hf => frame_trans hb (storeRegStep_frame b b1 a hf)) _ s s2 (frame_refl s) hfold

theorem caseFX65_frame (s s1 : Chip8) (h : caseFX65 s = .ok s1) : Frame s s1 := by
  unfold caseFX65 at h
  simp only [bind_ok, pure_ok] at h
  obtain ⟨s2, hfold, rfl⟩ := h
  exact foldlM_invariant (fun t => Frame s t) loadRegStep
    (fun b a b1 hb hf => frame_trans hb (loadRegStep_frame b b1 a hf)) _ s s2 (frame_refl s) hfold

theorem caseFX0A_frame (s : Chip8) (f : Flow) (h : caseFX0A s = .ok f) :
    Frame s f.state := by
  unfold caseFX0A at h
  simp only [bind_ok] at h
  obtain ⟨r, _, h⟩ := h
  split_ifs at h <;> simp only [pure_ok] at h <;> subst h <;> exact ⟨⟨rfl, rfl, rfl⟩, rfl⟩

theorem drawPixel_stackFrame (x y yline pixel : Nat) (s s1 : Chip8) (xline : Nat)
    (h : drawPixel x y yline pixel s xline = .ok s1) : StackFrame s s1 := by
  unfold drawPixel at h
  split_ifs at h
  · simp only [bind_ok, load_ok, pure_ok] at h
    repeat (obtain ⟨_, ⟨_, rfl⟩, h⟩ := h)
    exact ⟨rfl, rfl, rfl⟩
  · simp only [pure_ok] at h
    subst h
    exact stackFrame_refl s

theorem drawRow_stackFrame (x y height : Nat) (s s1 : Chip8) (yline : Nat)
    (h : drawRow x y height s yline = .ok s1) : StackFrame s s1 := by
  unfold drawRow at h
  simp only [bind_ok, load_ok] at h
  obtain ⟨pixel, _, hfold⟩ := h
  exact foldlM_invariant (fun t => StackFrame s t) _
    (fun b a b1 hb hf => stackFrame_trans hb (drawPixel_stackFrame x y yline pixel b b1 a hf)) _ s s1
    (stackFrame_refl s) hfold

theorem drawSprite_stackFrame (s s1 : Chip8) (h : drawSprite s = .ok s1) :
    StackFrame s s1 := by
  unfold drawSprite at h
  simp only [bind_ok, load_ok, pure_ok] at h
  obtain ⟨x, _, y, _, s2, hfold, rfl⟩ := h
  have h2 : StackFrame { s with V := upd s.V 0xF 0 } s2 :=
    foldlM_invariant (fun t => StackFrame { s with V := upd s.V 0xF 0 } t) _
      (fun b a b1 hb hf => stackFrame_trans hb (drawRow_stackFrame x y _ b b1 a hf)) _ _ s2
      (stackFrame_refl _) hfold
  exact ⟨h2.1, h2.2.1, h2.2.2⟩

theorem caseDXYN_stackFrame (s s1 : Chip8) (h : caseDXYN s = .ok s1) : StackFrame s s1 := by
  unfold caseDXYN at h
  simp only [bind_ok, pure_ok] at h
  obtain ⟨s2, hdraw, rfl⟩ := h
  have h2 := drawSprite_stackFrame s s2 hdraw
  exact ⟨h2.1, h2.2.1, h2.2.2⟩

/-! ## The stack pointer -/

theorem call_sp_le (address : Nat) (s s1 : Chip8) (h : call address s = .ok s1) :
    s.sp < 16 ∧ s1.sp = s.sp + 1 := by
  unfold call at h
  simp only [bind_ok, store_ok, pure_ok] at h
  obtain ⟨_, ⟨hlt, rfl⟩, rfl⟩ := h
  refine ⟨hlt, ?_⟩
  show (s.sp + 1) % 65536 = s.sp + 1
  omega

theorem case00EE_sp_lt (s s1 : Chip8) (h : case00EE s = .ok s1) : s1.sp < 16 := by
  unfold case00EE at h
  simp only [bind_ok, load_ok, pure_ok] at h
  obtain ⟨_, ⟨hlt, rfl⟩, rfl⟩ := h
  exact hlt

theorem fallThrough_stackFrame (r : Except Fault Chip8) (s : Chip8) (f : Flow)
    (hr : ∀ s1, r = .ok s1 → StackFrame s s1)
    (h : (r >>= fun s1 => pure (Flow.fallThrough s1)) = .ok f) : StackFrame s f.state := by
  simp only [bind_ok, pure_ok] at h
  obtain ⟨s1, h1, rfl⟩ := h
  exact hr s1 h1

theorem family8_stackFrame (s : Chip8) (f : Flow) (h : family8 s = .ok f) :
    StackFrame s f.state := by
  unfold family8 at h
  split_ifs at h
  · exact fallThrough_stackFrame _ s f (fun s1 h1 => (case8XY0_frame s s1 h1).1) h
  · exact fallThrough_stackFrame _ s f (fun s1 h1 => (case8XY1_frame s s1 h1).1) h
  · exact fallThrough_stackFrame _ s f (fun s1 h1 => (case8XY2_frame s s1 h1).1) h
  · exact fallThrough_stackFrame _ s f (fun s1 h1 => (case8XY3_frame s s1 h1).1) h
  · exact fallThrough_stackFrame _ s f (fun s1 h1 => (case8XY4_frame s s1 h1).1) h
  · exact fallThrough_stackFrame _ s f (fun s1 h1 => (case8XY5_frame s s1 h1).1) h
  · exact fallThrough_stackFrame _ s f (fun s1 h1 => (case8XY6_frame s s1 h1).1) h
  · exact fallThrough_stackFrame _ s f (fun s1 h1 => (case8XY7_frame s s1 h1).1) h
  · exact fallThrough_stackFrame _ s f (fun s1 h1 => (case8XYE_frame s s1 h1).1) h
  · simp only [pure_ok] at h
    subst h
    exact stackFrame_refl s

theorem familyE_stackFrame (s : Chip8) (f : Flow) (h : familyE s = .ok f) :
    StackFrame s f.state := by
  unfold familyE at h
  split_ifs at h
  · exact fallThrough_stackFrame _ s f (fun s1 h1 => (caseEX9E_frame s s1 h1).1) h
  · exact fallThrough_stackFrame _ s f (fun s1 h1 => (caseEXA1_frame s s1 h1).1) h
  · simp only [pure_ok] at h
    subst h
    exact stackFrame_refl s

theorem familyF_stackFrame (s : Chip8) (f : Flow) (h : familyF s = .ok f) :
    StackFrame s f.state := by
  unfold familyF at h
  split_ifs at h
  · exact fallThrough_stackFrame _ s f (fun s1 h1 => (caseFX07_frame s s1 h1).1) h
  · exact (caseFX0A_frame s f h).1
  · exact fallThrough_stackFrame _ s f (fun s1 h1 => (caseFX15_frame s s1 h1).1) h
  · exact fallThrough_stackFrame _ s f (fun s1 h1 => (caseFX18_frame s s1 h1).1) h
  · exact fallThrough_stackFrame _ s f (fun s1 h1 => (caseFX1E_frame s s1 h1).1) h
  · exact fallThrough_stackFrame _ s f (fun s1 h1 => (caseFX29_frame s s1 h1).1) h
  · exact fallThrough_stackFrame _ s f (fun s1 h1 => (caseFX33_frame s s1 h1).1) h
  · exact fallThrough_stackFrame _ s f (fun s1 h1 => (caseFX55_frame s s1 h1).1) h
  · exact fallThrough_stackFrame _ s f (fun s1 h1 => (caseFX65_frame s s1 h1).1) h
  · simp only [pure_ok] at h
    subst h
    exact stackFrame_refl s

theorem family0_sp_le (s : Chip8) (f : Flow) (hsp : s.sp ≤ 16) (h : family0 s = .ok f) :
    f.state.sp ≤ 16 := by
  unfold family0 at h
  split_ifs at h
  · simp only [pure_ok] at h
    subst h
    exact hsp
  · simp only [bind_ok, pure_ok] at h
    obtain ⟨s1, h1, rfl⟩ := h
    exact Nat.le_of_lt (case00EE_sp_lt s s1 h1)
  · simp only [pure_ok] at h
    subst h
    exact hsp

theorem dispatch_elim (rnd : Nat) (s : Chip8) (P : Except Fault Flow → Prop)
    (h0 : P (family0 s))
    (h1 : P (pure (.fallThrough (jump (opNNN s) s))))
    (h2 : P (call (opNNN s) s >>= fun s1 => pure (.fallThrough s1)))
    (h3 : P (case3XNN s >>= fun s1 => pure (.fallThrough s1)))
    (h4 : P (case4XNN s >>= fun s1 => pure (.fallThrough s1)))
    (h5 : P (case5XY0 s >>= fun s1 => pure (.fallThrough s1)))
    (h6 : P (case6XNN s >>= fun s1 => pure (.fallThrough s1)))
    (h7 : P (case7XNN s >>= fun s1 => pure (.fallThrough s1)))
    (h8 : P (family8 s))
    (h9 : P (case9XY0 s >>= fun s1 => pure (.fallThrough s1)))
    (hA : P (pure (.fallThrough (caseANNN s))))
    (hB : P (caseBNNN s >>= fun s1 => pure (.fallThrough s1)))
    (hC : P (caseCXNN rnd s >>= fun s1 => pure (.fallThrough s1)))
    (hD : P (caseDXYN s >>= fun s1 => pure (.fallThrough s1)))
    (hE : P (familyE s))
    (hF : P (familyF s))
    (hdefault : P (pure (.fallThrough s))) : P (dispatch rnd s) := by
  unfold dispatch
  generalize s.opcode &&& 0xF000 = k
  by_cases c0 : k = 0x0000
  · rw [if_pos c0]; exact h0
  rw [if_neg c0]
  by_cases c1 : k = 0x1000
  · rw [if_pos c1]; exact h1
  rw [if_neg c1]
  by_cases c2 : k = 0x2000
  · rw [if_pos c2]; exact h2
  rw [if_neg c2]
  by_cases c3 : k = 0x3000
  · rw [if_pos c3]; exact h3
  rw [if_neg c3]
  by_cases c4 : k = 0x4000
  · rw [if_pos c4]; exact h4
  rw [if_neg c4]
  by_cases c5 : k = 0x5000
  · rw [if_pos c5]; exact h5
  rw [if_neg c5]
  by_cases c6 : k = 0x6000
  · rw [if_pos c6]; exact h6
  rw [if_neg c6]
  by_cases c7 : k = 0x7000
  · rw [if_pos c7]; exact h7
  rw [if_neg c7]
  by_cases c8 : k = 0x8000
  · rw [if_pos c8]; exact h8
  rw [if_neg c8]
  by_cases c9 : k = 0x9000
  · rw [if_pos c9]; exact h9
  rw [if_neg c9]
  by_cases cA : k = 0xA000
  · rw [if_pos cA]; exact hA
  rw [if_neg cA]
  by_cases cB : k = 0xB000
  · rw [if_pos cB]; exact hB
  rw [if_neg cB]
  by_cases cC : k = 0xC000
  · rw [if_pos cC]; exact hC
  rw [if_neg cC]
  by_cases cD : k = 0xD000
  · rw [if_pos cD]; exact hD
  rw [if_neg cD]
  by_cases cE : k = 0xE000
  · rw [if_pos cE]; exact hE
  rw [if_neg cE]
  by_cases cF : k = 0xF000
  · rw [if_pos cF]; exact hF
  rw [if_neg cF]
  exact hdefault

theorem dispatch_sp_le (rnd : Nat) (s : Chip8) (f : Flow) (hsp : s.sp ≤ 16)
    (h : dispatch rnd s = .ok f) : f.state.sp ≤ 16 := by
  have key : ∀ t : Chip8, StackFrame s t → t.sp ≤ 16 := fun t ht => by rw [ht.1]; exact hsp
  revert h
  apply dispatch_elim rnd s (fun r => r = .ok f → f.state.sp ≤ 16) <;> intro h
  · exact family0_sp_le s f hsp h
  · simp only [pure_ok] at h
    subst h
    exact hsp
  · simp only [bind_ok, pure_ok] at h
    obtain ⟨s1, h1, rfl⟩ := h
    have := call_sp_le _ s s1 h1
    show s1.sp ≤ 16
    omega
  · exact key _ (fallThrough_stackFrame _ s f (fun s1 h1 => (case3XNN_frame s s1 h1).1) h)
  · exact key _ (fallThrough_stackFrame _ s f (fun s1 h1 => (case4XNN_frame s s1 h1).1) h)
  · exact key _ (fallThrough_stackFrame _ s f (fun s1 h1 => (case5XY0_frame s s1 h1).1) h)
  · exact key _ (fallThrough_stackFrame _ s f (fun s1 h1 => (case6XNN_frame s s1 h1).1) h)
  · exact key _ (fallThrough_stackFrame _ s f (fun s1 h1 => (case7XNN_frame s s1 h1).1) h)
  · exact key _ (family8_stackFrame s f h)
  · exact key _ (fallThrough_stackFrame _ s f (fun s1 h1 => (case9XY0_frame s s1 h1).1) h)
  · simp only [pure_ok] at h
    subst h
    exact hsp
  · exact key _ (fallThrough_stackFrame _ s f (fun s1 h1 => (caseBNNN_frame s s1 h1).1) h)
  · exact key _ (fallThrough_stackFrame _ s f (fun s1 h1 => (caseCXNN_frame rnd s s1 h1).1) h)
  · exact key _ (fallThrough_stackFrame _ s f (fun s1 h1 => caseDXYN_stackFrame s s1 h1) h)
  · exact key _ (familyE_stackFrame s f h)
  · exact key _ (familyF_stackFrame s f h)
  · simp only [pure_ok] at h
    subst h
    exact hsp

theorem cycle_ok_iff (rnd : Nat) (s s2 : Chip8) :
    cycle rnd s = .ok s2 ↔
      ∃ s1 f, fetch s = .ok s1 ∧ dispatch rnd s1 = .ok f ∧
        ((∃ t, f = .fallThrough t ∧ s2 = updateTimers t) ∨ f = .returned s2) := by
  unfold cycle
  simp only [bind_ok]
  constructor
  · rintro ⟨s1, h1, f, h2, h3⟩
    refine ⟨s1, f, h1, h2, ?_⟩
    cases f with
    | fallThrough t =>
      simp only [pure_ok] at h3
      exact Or.inl ⟨t, rfl, h3.symm⟩
    | returned t =>
      simp only [pure_ok] at h3
      exact Or.inr (by rw [h3])
  · rintro ⟨s1, f, h1, h2, h3⟩
    refine ⟨s1, h1, f, h2, ?_⟩
    rcases h3 with ⟨t, rfl, rfl⟩ | rfl
    · simp [pure_ok]
    · simp [pure_ok]

theorem fetch_sp (s s1 : Chip8) (h : fetch s = .ok s1) : s1.sp = s.sp := by
  unfold fetch at h
  simp only [bind_ok, load_ok, pure_ok] at h
  obtain ⟨_, _, _, _, rfl⟩ := h
  rfl

theorem cycle_sp_le (rnd : Nat) (s s2 : Chip8) (hsp : s.sp ≤ 16)
    (h : cycle rnd s = .ok s2) : s2.sp ≤ 16 := by
  rw [cycle_ok_iff] at h
  obtain ⟨s1, f, hf, hd, hres⟩ := h
  have h1 : s1.sp ≤ 16 := by rw [fetch_sp s s1 hf]; exact hsp
  have h2 := dispatch_sp_le rnd s1 f h1 hd
  rcases hres with ⟨t, rfl, rfl⟩ | rfl
  · rw [updateTimers_sp]
    exact h2
  · exact h2

/-- C6. Stack overflow and underflow end the cycle with an error (the Go run-time panic of
the out-of-range `stack[sp]`): call `2NNN` with `sp = 16` and return `00EE` with `sp = 0`
yield no successor state; and every state reached by a completed cycle from a state with
`sp <= 16` again has `sp <= 16`. -/
theorem stack_overflow_underflow_reported (rnd : Nat) :
    (∀ (s : Chip8) (nnn : Nat), s.pc + 1 < 4096 → nnn < 4096 → fetched s = 0x2000 + nnn →
        s.sp = 16 → cycle rnd s = .error .indexOutOfRange) ∧
    (∀ s : Chip8, s.pc + 1 < 4096 → fetched s = 0x00EE → s.sp = 0 →
        cycle rnd s = .error .indexOutOfRange) ∧
    (∀ s s1 : Chip8, s.sp ≤ 16 → cycle rnd s = .ok s1 → s1.sp ≤ 16) := by
  refine ⟨?_, ?_, fun s s1 hsp h => cycle_sp_le rnd s s1 hsp h⟩
  · intro s nnn hpc hnnn hw hsp
    apply cycle_error rnd s _ hpc
    rw [exec_2NNN rnd _ nnn hnnn hw]
    have hst : store s.stack 16 s.sp s.pc = .error .indexOutOfRange := by
      rw [hsp]
      rfl
    dsimp only
    rw [hst]
  · intro s hpc hw hsp
    apply cycle_error rnd s _ hpc
    rw [exec_00EE rnd _ hw]
    have hld : load s.stack 16 ((s.sp + 65535) % 65536) = .error .indexOutOfRange := by
      rw [hsp]
      rfl
    dsimp only
    rw [hld]

theorem stack_overflow_underflow_reported_witness :
    cycle 0 overflowState = .error .indexOutOfRange ∧
    cycle 0 underflowState = .error .indexOutOfRange ∧
    (∃ s1, cycle 0 callState = .ok s1 ∧ s1.sp ≤ 16) :=
  ⟨(stack_overflow_underflow_reported 0).1 overflowState 0x300 (by decide) (by decide)
      (by decide) (by decide),
    (stack_overflow_underflow_reported 0).2.1 underflowState (by decide) (by decide)
      (by decide),
    ⟨_, rfl, (stack_overflow_underflow_reported 0).2.2 callState _ (by decide) rfl⟩⟩

/-! ## Timers and words without a case -/

/-- C7 (evaluation at the failing input). `F00A` with no key pressed, delay timer 5 and
sound timer 1: the cycle completes through the `return` of the key-wait case and both
timers keep their values. -/
theorem wait_for_key_skips_updateTimers :
    ∃ s1, cycle 0 (timedState 0xF0 0x0A 5 1) = .ok s1 ∧
      s1.delayTimer = 5 ∧ s1.soundTimer = 1 ∧ s1.pc = 0x200 :=
  ⟨_, rfl, by decide, by decide, by decide⟩

theorem dispatch_noCase (rnd : Nat) (s : Chip8) (h : noCase s.opcode) :
    dispatch rnd s = .ok (.fallThrough s) := by
  rcases h with ⟨hf, h1, h2⟩ | ⟨hf, h1⟩ | ⟨hf, h1, h2⟩ | ⟨hf, h1⟩
  · simp [dispatch, hf, family0, h1, h2, pure, Except.pure]
  · simp only [List.mem_cons, List.mem_singleton, not_or, List.not_mem_nil, or_false] at h1
    obtain ⟨a0, a1, a2, a3, a4, a5, a6, a7, a8⟩ := h1
    simp [dispatch, hf, family8, a0, a1, a2, a3, a4, a5, a6, a7, a8, pure, Except.pure]
  · have e1 : opNN s ≠ 0x009E := h1
    have e2 : opNN s ≠ 0x00A1 := h2
    simp [dispatch, hf, familyE, e1, e2, pure, Except.pure]
  · simp only [List.mem_cons, List.mem_singleton, not_or, List.not_mem_nil, or_false] at h1
    obtain ⟨a0, a1, a2, a3, a4, a5, a6, a7, a8⟩ := h1
    have b0 : opNN s ≠ 0x07 := a0
    have b1 : opNN s ≠ 0x0A := a1
    have b2 : opNN s ≠ 0x15 := a2
    have b3 : opNN s ≠ 0x18 := a3
    have b4 : opNN s ≠ 0x1E := a4
    have b5 : opNN s ≠ 0x29 := a5
    have b6 : opNN s ≠ 0x33 := a6
    have b7 : opNN s ≠ 0x55 := a7
    have b8 : opNN s ≠ 0x65 := a8
    simp [dispatch, hf, familyF, b0, b1, b2, b3, b4, b5, b6, b7, b8, pure, Except.pure]

/-- C8 (amended). For a fetched word that the switch has no case for (`noCase`: `0x0NNN`
with low nibble other than 0 and E, `0x8XYN` with N in 8..D or F, `0xEXNN` with low byte
other than 9E/A1, `0xFXNN` with an undefined low byte), one cycle completes and leaves
`pc`, memory, all registers, `I`, the stack, the stack pointer, the display, the keypad and
the redraw flag unchanged, while `updateTimers` still runs: each timer is one less if it
was nonzero and stays 0 otherwise (truncated subtraction). -/
theorem unrecognized_word_only_updates_timers (rnd : Nat) (s : Chip8)
    (hpc : s.pc + 1 < 4096) (hw : noCase (fetched s)) :
    ∃ s1, cycle rnd s = .ok s1 ∧
      s1.pc = s.pc ∧ s1.memory = s.memory ∧ s1.V = s.V ∧ s1.I = s.I ∧
      s1.stack = s.stack ∧ s1.sp = s.sp ∧ s1.gfx = s.gfx ∧ s1.key = s.key ∧
      s1.drawFlag = s.drawFlag ∧
      s1.delayTimer = s.delayTimer - 1 ∧ s1.soundTimer = s.soundTimer - 1 := by
  refine ⟨_, cycle_fallThrough rnd s _ hpc
    (dispatch_noCase rnd { s with opcode := fetched s } hw), ?_⟩
  simp [updateTimers_delayTimer, updateTimers_soundTimer]

theorem unrecognized_word_only_updates_timers_witness :
    ∃ s1, cycle 0 (timedState 0x80 0x08 5 0) = .ok s1 ∧
      s1.pc = (timedState 0x80 0x08 5 0).pc ∧
      s1.memory = (timedState 0x80 0x08 5 0).memory ∧
      s1.V = (timedState 0x80 0x08 5 0).V ∧ s1.I = (timedState 0x80 0x08 5 0).I ∧
      s1.stack = (timedState 0x80 0x08 5 0).stack ∧ s1.sp = (timedState 0x80 0x08 5 0).sp ∧
      s1.gfx = (timedState 0x80 0x08 5 0).gfx ∧ s1.key = (timedState 0x80 0x08 5 0).key ∧
      s1.drawFlag = (timedState 0x80 0x08 5 0).drawFlag ∧
      s1.delayTimer = 4 ∧ s1.soundTimer = 0 :=
  unrecognized_word_only_updates_timers 0 (timedState 0x80 0x08 5 0) (by decide) (by decide)

/-- C8 (counterexample). The word `0x0001` matches no instruction pattern, yet with delay
timer 5 the cycle leaves the delay timer at 4; and the word `0x0010`, which is neither
`0x00E0` nor `0x00EE`, runs the clear-screen case and moves `pc` from `0x200` to `0x202`. -/
theorem unrecognized_word_not_noop_counterexample :
    (∃ s1, cycle 0 (timedState 0x00 0x01 5 0) = .ok s1 ∧
      s1.delayTimer ≠ (timedState 0x00 0x01 5 0).delayTimer) ∧
    (∃ s1, cycle 0 (timedState 0x00 0x10 0 0) = .ok s1 ∧
      s1.pc ≠ (timedState 0x00 0x10 0 0).pc) :=
  ⟨⟨_, rfl, by decide⟩, ⟨_, rfl, by decide⟩⟩

/-! ## Skip-if-registers-equal -/

/-- C9 (evaluation at the failing input). The word `0x5010` (x = 0, y = 1): the case
computes `y := opcode & 0x00F0 = 16` without the shift, and `V[16]` is outside the
16-element register array, so the cycle ends in the index-out-of-range panic. -/
theorem skip_if_registers_equal_5XY0_faults :
    cycle 0 (sampleState 0x50 0x10 (fun _ => 0)) = .error .indexOutOfRange :=
  rfl

/-! ## Wait-for-key -/

theorem upd_upd (a : Nat → Nat) (i v w : Nat) : upd (upd a i v) i w = upd a i w := by
  funext j
  simp only [upd_apply]
  split_ifs <;> rfl

theorem keyScan_range (key : Nat → Nat) (x : Nat) (v : Nat → Nat) (hx : x < 16) :
    ∀ n, n ≤ 16 → ∃ r, (List.range n).foldlM (keyScanStep key x) (v, false) = .ok r ∧
      ((r.2 = false ∧ r.1 = v ∧ ∀ i, i < n → key i = 0) ∨
        (r.2 = true ∧ ∃ k, k < n ∧ key k ≠ 0 ∧ (∀ j, k < j → j < n → key j = 0) ∧
          r.1 = upd v x k)) := by
  intro n
  induction n with
  | zero =>
    intro _
    exact ⟨(v, false), rfl, Or.inl ⟨rfl, rfl, fun i hi => absurd hi (Nat.not_lt_zero i)⟩⟩
  | succ n ih =>
    intro hn
    obtain ⟨r, hr, hcase⟩ := ih (by omega)
    have hn16 : n < 16 := by omega
    have hmod : n % 256 = n := by omega
    rw [List.range_succ, List.foldlM_append, hr]
    by_cases hk : key n = 0
    · refine ⟨r, ?_, ?_⟩
      · simp [keyScanStep, load, store, hn16, hk, bind, Except.bind, pure, Except.pure]
      · rcases hcase with ⟨h2, h1, h0⟩ | ⟨h2, k, hkn, hkk, hmax, h1⟩
        · refine Or.inl ⟨h2, h1, fun i hi => ?_⟩
          rcases Nat.lt_succ_iff_lt_or_eq.mp hi with h | h
          · exact h0 i h
          · rw [h]; exact hk
        · refine Or.inr ⟨h2, k, by omega, hkk, fun j hj1 hj2 => ?_, h1⟩
          rcases Nat.lt_succ_iff_lt_or_eq.mp hj2 with h | h
          · exact hmax j hj1 h
          · rw [h]; exact hk
    · refine ⟨(upd r.1 x n, true), ?_, ?_⟩
      · simp [keyScanStep, load, store, hn16, hx, hk, hmod, bind, Except.bind, pure,
          Except.pure]
      · refine Or.inr ⟨rfl, n, Nat.lt_succ_self n, hk, fun j hj1 hj2 => by omega, ?_⟩
        rcases hcase with ⟨_, h1, _⟩ | ⟨_, k, _, _, _, h1⟩
        · show upd r.1 x n = upd v x n
          rw [h1]
        · show upd r.1 x n = upd v x n
          rw [h1, upd_upd]

theorem dispatch_F (rnd : Nat) (s : Chip8) (h : s.opcode / 4096 % 16 = 15) :
    dispatch rnd s = familyF s := by
  have hF : s.opcode &&& 0xF000 = 0xF000 := by rw [and_F000, h]
  simp [dispatch, hF]

theorem exec_FX0A (rnd : Nat) (s : Chip8) (x : Nat) (hx : x < 16)
    (hop : s.opcode = 0xF00A + x * 256) :
    dispatch rnd s = caseFX0A s ∧ opX s = x := by
  have hX : opX s = x := by rw [opX_eq]; omega
  have hN : opNN s = 0x000A := by rw [opNN_eq]; omega
  rw [dispatch_F rnd s (by omega)]
  simp [familyF, hN, hX]

/-- C10. Wait-for-key `FX0A`: when no entry of the keypad array is nonzero the cycle
completes with `pc` and every register unchanged; otherwise there is a highest-indexed
pressed key `k` (pressed, and no key above it pressed), and the cycle completes with
`V[x] = k`, every other register unchanged, and `pc = old pc + 2`. -/
theorem wait_for_key_FX0A (rnd : Nat) (s : Chip8) (x : Nat) (hx : x < 16)
    (hpc : s.pc + 1 < 4096) (hw : fetched s = 0xF00A + x * 256) :
    ((∀ i, i < 16 → s.key i = 0) →
      ∃ s1, cycle rnd s = .ok s1 ∧ s1.pc = s.pc ∧ ∀ r, s1.V r = s.V r) ∧
    ((¬ ∀ i, i < 16 → s.key i = 0) →
      ∃ k s1, k < 16 ∧ s.key k ≠ 0 ∧ (∀ j, k < j → j < 16 → s.key j = 0) ∧
        cycle rnd s = .ok s1 ∧ s1.V x = k ∧ (∀ r, r ≠ x → s1.V r = s.V r) ∧
        s1.pc = s.pc + 2) := by
  obtain ⟨hd, hX⟩ := exec_FX0A rnd { s with opcode := fetched s } x hx hw
  obtain ⟨r, hr, hcase⟩ := keyScan_range s.key x s.V hx 16 (Nat.le_refl 16)
  have hcaseEq : caseFX0A { s with opcode := fetched s } =
      (if !r.2 then .ok (.returned { s with opcode := fetched s, V := r.1 })
       else .ok (.fallThrough (goToNextInstruction
        { s with opcode := fetched s, V := r.1 }))) := by
    unfold caseFX0A
    rw [hX]
    dsimp only
    rw [hr]
    rfl
  constructor
  · intro hnone
    rcases hcase with ⟨h2, h1, _⟩ | ⟨_, k, hk, hkk, _, _⟩
    · have hret : dispatch rnd { s with opcode := fetched s } =
          .ok (.returned { s with opcode := fetched s, V := r.1 }) := by
        rw [hd, hcaseEq, h2]
        rfl
      refine ⟨_, cycle_returned rnd s _ hpc hret, rfl, ?_⟩
      intro q
      show r.1 q = s.V q
      rw [h1]
    · exact absurd (hnone k hk) hkk
  · intro hsome
    rcases hcase with ⟨_, _, h0⟩ | ⟨h2, k, hk, hkk, hmax, h1⟩
    · exact absurd h0 hsome
    · have hgo : dispatch rnd { s with opcode := fetched s } =
          .ok (.fallThrough (goToNextInstruction
            { s with opcode := fetched s, V := r.1 })) := by
        rw [hd, hcaseEq, h2]
        rfl
      refine ⟨k, _, hk, hkk, hmax, cycle_fallThrough rnd s _ hpc hgo, ?_, ?_, ?_⟩
      · simp [goToNextInstruction, h1]
      · intro q hq
        simp [goToNextInstruction, h1, hq]
      · simp [goToNextInstruction]
        omega

theorem wait_for_key_FX0A_witness :
    (∃ s1, cycle 0 (sampleState 0xF3 0x0A (regs12 7 8)) = .ok s1 ∧
      s1.pc = (sampleState 0xF3 0x0A (regs12 7 8)).pc ∧
      ∀ r, s1.V r = (sampleState 0xF3 0x0A (regs12 7 8)).V r) ∧
    (∃ k s1, k < 16 ∧ keysState.key k ≠ 0 ∧ (∀ j, k < j → j < 16 → keysState.key j = 0) ∧
      cycle 0 keysState = .ok s1 ∧ s1.V 3 = k ∧ (∀ r, r ≠ 3 → s1.V r = keysState.V r) ∧
      s1.pc = keysState.pc + 2) :=
  ⟨(wait_for_key_FX0A 0 (sampleState 0xF3 0x0A (regs12 7 8)) 3 (by decide) (by decide)
      (by decide)).1 (fun _ _ => rfl),
    (wait_for_key_FX0A 0 keysState 3 (by decide) (by decide) (by decide)).2
      (fun h => absurd (h 2 (by decide)) (by decide))⟩

/-! ## Clear-screen -/

/-- C11 (evaluation at the failing input). `00E0` from a state with display cell 5 lit and
`drawFlag` false: the cycle clears the cell and advances `pc` to `0x202`, but `drawFlag` is
still false, since `clearScreen` does not assign it. -/
theorem clear_screen_leaves_drawFlag :
    ∃ s1, cycle 0 litState = .ok s1 ∧
      litState.gfx 5 = 1 ∧ s1.gfx 5 = 0 ∧ s1.pc = 0x202 ∧ s1.drawFlag = false :=
  ⟨_, rfl, by decide, by decide, by decide, by decide⟩

/-! ## The initializer -/

theorem chip8Fontset_glyph (d j : Nat) (hd : d < 16) (hj : j < 5) :
    chip8Fontset.getD (5 * d + j) 0 = (glyph d).getD j 0 := by
  interval_cases d <;> interval_cases j <;> rfl

/-- C12. Initializer postcondition: from any prior state, after `initilize` `pc = 0x200`,
`I = 0`, `sp = 0`, both timers are 0, every stack slot and every display cell is 0, the
redraw flag is true, `memory[0..79]` is the 80-byte font table with glyph `d` at
`memory[5d..5d+4]`, and `memory[80..4095]` is zero. -/
theorem initilize_postcondition (s : Chip8) :
    (initilize s).pc = 0x200 ∧ (initilize s).I = 0 ∧ (initilize s).sp = 0 ∧
    (initilize s).delayTimer = 0 ∧ (initilize s).soundTimer = 0 ∧
    (∀ i, i < 16 → (initilize s).stack i = 0) ∧
    (∀ i, i < 2048 → (initilize s).gfx i = 0) ∧
    (initilize s).drawFlag = true ∧
    (∀ i, i < 80 → (initilize s).memory i = chip8Fontset.getD i 0) ∧
    (∀ d j, d < 16 → j < 5 → (initilize s).memory (5 * d + j) = (glyph d).getD j 0) ∧
    (∀ i, 80 ≤ i → i < 4096 → (initilize s).memory i = 0) := by
  refine ⟨rfl, rfl, rfl, rfl, rfl, ?_, ?_, rfl, ?_, ?_, ?_⟩
  · intro i hi
    simp [initilize, clearScreen, hi]
  · intro i hi
    simp [initilize, clearScreen, hi]
  · intro i hi
    simp [initilize, clearScreen, hi]
  · intro d j hd hj
    have h80 : 5 * d + j < 80 := by omega
    rw [← chip8Fontset_glyph d j hd hj]
    simp [initilize, clearScreen, h80]
  · intro i h1 h2
    have h80 : ¬ i < 80 := by omega
    simp [initilize, clearScreen, h80, h2]

theorem initilize_postcondition_witness :
    (initilize keysState).pc = 0x200 ∧ (initilize keysState).stack 15 = 0 ∧
    (initilize keysState).gfx 2047 = 0 ∧
    (initilize keysState).memory 79 = chip8Fontset.getD 79 0 ∧
    (initilize keysState).memory (5 * 1 + 1) = (glyph 1).getD 1 0 ∧
    (initilize keysState).memory 0x200 = 0 :=
  ⟨(initilize_postcondition keysState).1,
    (initilize_postcondition keysState).2.2.2.2.2.1 15 (by decide),
    (initilize_postcondition keysState).2.2.2.2.2.2.1 2047 (by decide),
    (initilize_postcondition keysState).2.2.2.2.2.2.2.2.1 79 (by decide),
    (initilize_postcondition keysState).2.2.2.2.2.2.2.2.2.1 1 1 (by decide) (by decide),
    (initilize_postcondition keysState).2.2.2.2.2.2.2.2.2.2 0x200 (by decide) (by decide)⟩

/-- C13 (evaluation at the failing input). From a state with `V1 = 7` and key 2 pressed,
`initilize` leaves `V1 = 7` (and `key[2] = 1`): the register file is not assigned. -/
theorem initilize_keeps_registers :
    (initilize (sampleState 0 0 (regs12 7 0))).V 1 = 7 ∧
    (sampleState 0 0 (regs12 7 0)).V 1 = 7 ∧
    (initilize keysState).key 2 = 1 := by
  decide

/-- C14. Initializer idempotence: for every starting state `s`, `initilize (initilize s)`
is the same state as `initilize s`: the same memory, registers and display, and the same
`pc`, `I`, `sp`, stack, timers and redraw flag (and opcode and keypad). -/
theorem initilize_idempotent (s : Chip8) : initilize (initilize s) = initilize s := by
  have hm : (initilize (initilize s)).memory = (initilize s).memory := by
    funext i
    simp only [initilize, clearScreen]
    split_ifs <;> rfl
  have hk : (initilize (initilize s)).stack = (initilize s).stack := by
    funext i
    simp only [initilize, clearScreen]
    split_ifs <;> rfl
  have hg : (initilize (initilize s)).gfx = (initilize s).gfx := by
    funext i
    simp only [initilize, clearScreen]
    split_ifs <;> rfl
  have hsplit : ∀ a b : Chip8, a.opcode = b.opcode → a.memory = b.memory → a.V = b.V →
      a.I = b.I → a.pc = b.pc → a.gfx = b.gfx → a.delayTimer = b.delayTimer →
      a.soundTimer = b.soundTimer → a.stack = b.stack → a.sp = b.sp → a.key = b.key →
      a.drawFlag = b.drawFlag → a = b := by
    intro a b h1 h2 h3 h4 h5 h6 h7 h8 h9 h10 h11 h12
    cases a
    cases b
    simp only at h1 h2 h3 h4 h5 h6 h7 h8 h9 h10 h11 h12
    subst h1 h2 h3 h4 h5 h6 h7 h8 h9 h10 h11 h12
    rfl
  exact hsplit _ _ rfl hm rfl rfl rfl hg rfl rfl hk rfl rfl rfl

/-! ## Font address, BCD and set-immediate -/

theorem exec_FX29 (rnd : Nat) (s : Chip8) (x : Nat) (hx : x < 16)
    (hop : s.opcode = 0xF029 + x * 256) :
    dispatch rnd s =
      .ok (.fallThrough (goToNextInstruction { s with I := (s.V x * 0x5) % 256 })) := by
  have hX : opX s = x := by rw [opX_eq]; omega
  have hN : opNN s = 0x0029 := by rw [opNN_eq]; omega
  rw [dispatch_F rnd s (by omega)]
  simp [familyF, caseFX29, hN, hX, load, hx, bind, Except.bind, pure, Except.pure]

/-- C15 (amended). Set-index-to-font-char `FX29`: after one cycle
`I = (V[x] * 5) mod 256`, the product being taken in 8-bit arithmetic, and
`pc = old pc + 2`; so `I = V[x] * 5` exactly when `V[x] <= 51`. In particular, when
`memory[0..79]` holds the font table (as after `initilize`) and `V[x] = d` is in `0..15`,
`memory[I..I+4]` is the 5-byte glyph for hex digit `d`. -/
theorem set_index_to_font_char_FX29 (rnd : Nat) (s : Chip8) (x : Nat) (hx : x < 16)
    (hpc : s.pc + 1 < 4096) (hw : fetched s = 0xF029 + x * 256) :
    ∃ s1, cycle rnd s = .ok s1 ∧
      s1.I = (s.V x * 5) % 256 ∧ s1.pc = s.pc + 2 ∧
      (s.V x ≤ 51 → s1.I = s.V x * 5) ∧
      ((∀ i, i < 80 → s.memory i = chip8Fontset.getD i 0) → s.V x < 16 →
        ∀ j, j < 5 → s1.memory (s1.I + j) = (glyph (s.V x)).getD j 0) := by
  refine ⟨_, cycle_fallThrough rnd s _ hpc (exec_FX29 rnd _ x hx hw), ?_, ?_, ?_, ?_⟩
  · simp [goToNextInstruction]
  · simp [goToNextInstruction]
    omega
  · intro h
    simp [goToNextInstruction]
    omega
  · intro hfont hd j hj
    have hI : (s.V x * 5) % 256 = 5 * s.V x := by omega
    simp only [goToNextInstruction, updateTimers_memory, updateTimers_I, hI]
    rw [hfont _ (by omega)]
    exact chip8Fontset_glyph (s.V x) j hd hj

theorem fontState_font (i : Nat) (hi : i < 80) :
    fontState.memory i = chip8Fontset.getD i 0 := by
  have h1 : i ≠ 0x200 := by omega
  have h2 : i ≠ 0x201 := by omega
  simp [fontState, initilize, clearScreen, hi, h1, h2]

theorem set_index_to_font_char_FX29_witness :
    ∃ s1, cycle 0 fontState = .ok s1 ∧ s1.I = 50 ∧ s1.pc = 0x202 ∧
      ∀ j, j < 5 → s1.memory (s1.I + j) = (glyph 10).getD j 0 := by
  obtain ⟨s1, h1, h2, h3, _, h5⟩ :=
    set_index_to_font_char_FX29 0 fontState 0 (by decide) (by decide) (by decide)
  exact ⟨s1, h1, h2, h3, h5 fontState_font (by decide)⟩

/-- C15 (counterexample). With `V0 = 52` the word `0xF029` sets `I = 4`, not
`52 * 5 = 260`. -/
theorem set_index_to_font_char_FX29_counterexample :
    ∃ s1, cycle 0 (sampleState 0xF0 0x29 (regs0F 52 0)) = .ok s1 ∧ s1.I = 4 ∧
      s1.I ≠ (sampleState 0xF0 0x29 (regs0F 52 0)).V 0 * 5 :=
  ⟨_, rfl, by decide, by decide⟩

theorem exec_FX33 (rnd : Nat) (s : Chip8) (x : Nat) (hx : x < 16)
    (hop : s.opcode = 0xF033 + x * 256) (hI : s.I + 2 ≤ 4095) :
    dispatch rnd s =
      .ok (.fallThrough (goToNextInstruction
        { s with memory := upd (upd (upd s.memory s.I (s.V x / 100)) (s.I + 1)
            (s.V x / 10 % 10)) (s.I + 2) (s.V x % 100 % 10) })) := by
  have hX : opX s = x := by rw [opX_eq]; omega
  have hN : opNN s = 0x0033 := by rw [opNN_eq]; omega
  have h0 : s.I < 4096 := by omega
  have h1 : (s.I + 1) % 65536 = s.I + 1 := by omega
  have h2 : (s.I + 2) % 65536 = s.I + 2 := by omega
  have h1lt : s.I + 1 < 4096 := by omega
  have h2lt : s.I + 2 < 4096 := by omega
  rw [dispatch_F rnd s (by omega)]
  unfold familyF
  rw [hN]
  unfold caseFX33
  rw [hX, h1, h2]
  simp [load, store, hx, h0, h1lt, h2lt, bind, Except.bind, pure, Except.pure]

/-- C16. Store-BCD `FX33`: for a byte `V[x]` and `I + 2 <= 4095`, after one cycle
`memory[I]`, `memory[I+1]`, `memory[I+2]` are the hundreds, tens and ones decimal digits of
old `V[x]` (each in `0..9`, and `100 * memory[I] + 10 * memory[I+1] + memory[I+2] = V[x]`),
every other memory cell and every register is unchanged, and `pc = old pc + 2`. -/
theorem store_bcd_FX33 (rnd : Nat) (s : Chip8) (x : Nat) (hx : x < 16)
    (hpc : s.pc + 1 < 4096) (hw : fetched s = 0xF033 + x * 256)
    (hV : s.V x < 256) (hI : s.I + 2 ≤ 4095) :
    ∃ s1, cycle rnd s = .ok s1 ∧
      s1.memory s.I = s.V x / 100 ∧ s1.memory (s.I + 1) = s.V x / 10 % 10 ∧
      s1.memory (s.I + 2) = s.V x % 10 ∧
      s1.memory s.I ≤ 9 ∧ s1.memory (s.I + 1) ≤ 9 ∧ s1.memory (s.I + 2) ≤ 9 ∧
      100 * s1.memory s.I + 10 * s1.memory (s.I + 1) + s1.memory (s.I + 2) = s.V x ∧
      (∀ a, a ≠ s.I → a ≠ s.I + 1 → a ≠ s.I + 2 → s1.memory a = s.memory a) ∧
      (∀ r, s1.V r = s.V r) ∧ s1.pc = s.pc + 2 := by
  have hm0 : (updateTimers (goToNextInstruction
      { s with opcode := fetched s,
               memory := upd (upd (upd s.memory s.I (s.V x / 100)) (s.I + 1)
                 (s.V x / 10 % 10)) (s.I + 2) (s.V x % 100 % 10) })).memory s.I =
      s.V x / 100 := by
    simp [goToNextInstruction]
  have hm1 : (updateTimers (goToNextInstruction
      { s with opcode := fetched s,
               memory := upd (upd (upd s.memory s.I (s.V x / 100)) (s.I + 1)
                 (s.V x / 10 % 10)) (s.I + 2) (s.V x % 100 % 10) })).memory (s.I + 1) =
      s.V x / 10 % 10 := by
    simp [goToNextInstruction]
  have hm2 : (updateTimers (goToNextInstruction
      { s with opcode := fetched s,
               memory := upd (upd (upd s.memory s.I (s.V x / 100)) (s.I + 1)
                 (s.V x / 10 % 10)) (s.I + 2) (s.V x % 100 % 10) })).memory (s.I + 2) =
      s.V x % 10 := by
    simp [goToNextInstruction]
    omega
  refine ⟨_, cycle_fallThrough rnd s _ hpc (exec_FX33 rnd _ x hx hw hI),
    hm0, hm1, hm2, ?_, ?_, ?_, ?_, ?_, ?_, ?_⟩
  · rw [hm0]; omega
  · rw [hm1]; omega
  · rw [hm2]; omega
  · rw [hm0, hm1, hm2]; omega
  · intro a ha0 ha1 ha2
    simp [goToNextInstruction, ha0, ha1, ha2]
  · intro r
    simp [goToNextInstruction]
  · simp [goToNextInstruction]
    omega

theorem store_bcd_FX33_witness :
    ∃ s1, cycle 0 bcdState = .ok s1 ∧
      s1.memory 0x300 = 2 ∧ s1.memory 0x301 = 5 ∧ s1.memory 0x302 = 4 ∧
      s1.memory 0x300 ≤ 9 ∧ s1.memory 0x301 ≤ 9 ∧ s1.memory 0x302 ≤ 9 ∧
      100 * s1.memory 0x300 + 10 * s1.memory 0x301 + s1.memory 0x302 = 254 ∧
      (∀ a, a ≠ 0x300 → a ≠ 0x301 → a ≠ 0x302 → s1.memory a = bcdState.memory a) ∧
      (∀ r, s1.V r = bcdState.V r) ∧ s1.pc = 0x202 :=
  store_bcd_FX33 0 bcdState 1 (by decide) (by decide) (by decide) (by decide) (by decide)

theorem exec_6XNN (rnd : Nat) (s : Chip8) (x nn : Nat) (hx : x < 16) (hnn : nn < 256)
    (hop : s.opcode = 0x6000 + x * 256 + nn) :
    dispatch rnd s =
      .ok (.fallThrough (goToNextInstruction { s with V := upd s.V x nn })) := by
  have hX : opX s = x := by rw [opX_eq]; omega
  have hN : opNN s = nn := by rw [opNN_eq]; omega
  have h6 : s.opcode &&& 0xF000 = 0x6000 := by rw [and_F000]; omega
  have hmod : nn % 256 = nn := by omega
  simp [dispatch, h6, case6XNN, hX, hN, hmod, store, hx, bind, Except.bind, pure,
    Except.pure]

/-- C17. Set-immediate `6XNN`: for every `x` in `0..15`, every `nn` in `0..255` and every
state with a fetchable `pc`, after one cycle on the word `6xnn` `V[x] = nn`, every other
register is unchanged, and `pc` has advanced by exactly 2. -/
theorem set_immediate_6XNN (rnd : Nat) (s : Chip8) (x nn : Nat) (hx : x < 16)
    (hnn : nn < 256) (hpc : s.pc + 1 < 4096) (hw : fetched s = 0x6000 + x * 256 + nn) :
    ∃ s1, cycle rnd s = .ok s1 ∧ s1.V x = nn ∧ (∀ r, r ≠ x → s1.V r = s.V r) ∧
      s1.pc = s.pc + 2 := by
  refine ⟨_, cycle_fallThrough rnd s _ hpc (exec_6XNN rnd _ x nn hx hnn hw), ?_, ?_, ?_⟩
  · simp [goToNextInstruction]
  · intro r hr
    simp [goToNextInstruction, hr]
  · simp [goToNextInstruction]
    omega

theorem set_immediate_6XNN_witness :
    ∃ s1, cycle 0 (sampleState 0x6F 0xAB (regs12 1 2)) = .ok s1 ∧ s1.V 15 = 0xAB ∧
      (∀ r, r ≠ 15 → s1.V r = (sampleState 0x6F 0xAB (regs12 1 2)).V r) ∧
      s1.pc = 0x202 :=
  set_immediate_6XNN 0 (sampleState 0x6F 0xAB (regs12 1 2)) 15 0xAB (by decide) (by decide)
    (by decide) (by decide)

/-! ## The program counter and the fetch -/

theorem loadLoop_ok (rom : List Nat) : ∀ (i : Nat) (m : Nat → Nat), i + 512 < 4096 →
    ∃ m1, loadLoop rom i m = .ok m1 := by
  induction rom with
  | nil =>
    intro i m _
    exact ⟨m, by rw [loadLoop]; rfl⟩
  | cons c rest ih =>
    intro i m hi
    rw [loadLoop]
    simp only [store, hi, if_true, bind, Except.bind, pure, Except.pure]
    by_cases hend : i + 1 + 512 ≥ 4096
    · rw [if_pos hend]
      exact ⟨_, rfl⟩
    · rw [if_neg hend]
      exact ih (i + 1) _ (by omega)

theorem loadApplication_boot (rom : List Nat) (s : Chip8) :
    ∃ s0, loadApplication rom s = .ok s0 ∧ s0.pc = s.pc := by
  obtain ⟨m, hm⟩ := loadLoop_ok rom 0 s.memory (by decide)
  refine ⟨{ s with memory := m }, ?_, rfl⟩
  unfold loadApplication
  rw [hm]
  rfl

theorem jumpBoot_reachable : Reachable jumpRom jumpBoot :=
  Reachable.boot jumpBoot rfl

theorem jumpLanded_reachable : Reachable jumpRom jumpLanded :=
  Reachable.step 0 jumpBoot jumpLanded jumpBoot_reachable rfl

/-- C18 (amended). For every program image loaded at `0x200` the machine boots with
`pc = 0x200`, and for every state reachable from there by completed cycles the two-byte
fetch never indexes outside the 4096-byte memory: when `pc + 1 <= 4095` the fetch reads
`memory[pc]`, `memory[pc+1]`, and otherwise the cycle does not complete but ends in the
index-out-of-range panic. (`pc + 1 <= 4095` itself is not an invariant of the reachable
states.) -/
theorem fetch_never_outside_memory (rom : List Nat) (rnd : Nat) (s : Chip8)
    (hreach : Reachable rom s) :
    (∃ s0, loadApplication rom (initilize zeroState) = .ok s0 ∧ s0.pc = 0x200) ∧
    (s.pc + 1 ≤ 4095 → fetch s = .ok { s with opcode := fetched s }) ∧
    (¬ s.pc + 1 ≤ 4095 → cycle rnd s = .error .indexOutOfRange) := by
  refine ⟨loadApplication_boot rom (initilize zeroState), ?_, ?_⟩
  · intro h
    exact fetch_ok s (by omega)
  · intro h
    have hf : fetch s = .error .indexOutOfRange := by
      apply fetch_error
      by_cases hlt : s.pc < 4096
      · left
        omega
      · right
        exact hlt
    unfold cycle
    rw [hf]
    rfl

theorem fetch_never_outside_memory_witness :
    (∃ s0, loadApplication jumpRom (initilize zeroState) = .ok s0 ∧ s0.pc = 0x200) ∧
    fetch jumpBoot = .ok { jumpBoot with opcode := fetched jumpBoot } ∧
    cycle 0 jumpLanded = .error .indexOutOfRange :=
  ⟨(fetch_never_outside_memory jumpRom 0 jumpBoot jumpBoot_reachable).1,
    (fetch_never_outside_memory jumpRom 0 jumpBoot jumpBoot_reachable).2.1 (by decide),
    (fetch_never_outside_memory jumpRom 0 jumpLanded jumpLanded_reachable).2.2 (by decide)⟩

/-- C18 (counterexample). With the program image `1FFF` the state after the first cycle is
reachable and has `pc = 0xFFF`, so `pc + 1 <= 4095` fails. -/
theorem pc_not_always_fetchable_counterexample :
    ∃ s, Reachable jumpRom s ∧ s.pc = 0xFFF ∧ ¬ s.pc + 1 ≤ 4095 :=
  ⟨jumpLanded, jumpLanded_reachable, rfl, by decide⟩

/-! ## Display cells are single bits -/

theorem fallThrough_frame (r : Except Fault Chip8) (s : Chip8) (f : Flow)
    (hr : ∀ s1, r = .ok s1 → Frame s s1)
    (h : (r >>= fun s1 => pure (Flow.fallThrough s1)) = .ok f) : Frame s f.state := by
  simp only [bind_ok, pure_ok] at h
  obtain ⟨s1, h1, rfl⟩ := h
  exact hr s1 h1

theorem family8_frame (s : Chip8) (f : Flow) (h : family8 s = .ok f) : Frame s f.state := by
  unfold family8 at h
  split_ifs at h
  · exact fallThrough_frame _ s f (case8XY0_frame s) h
  · exact fallThrough_frame _ s f (case8XY1_frame s) h
  · exact fallThrough_frame _ s f (case8XY2_frame s) h
  · exact fallThrough_frame _ s f (case8XY3_frame s) h
  · exact fallThrough_frame _ s f (case8XY4_frame s) h
  · exact fallThrough_frame _ s f (case8XY5_frame s) h
  · exact fallThrough_frame _ s f (case8XY6_frame s) h
  · exact fallThrough_frame _ s f (case8XY7_frame s) h
  · exact fallThrough_frame _ s f (case8XYE_frame s) h
  · simp only [pure_ok] at h
    subst h
    exact frame_refl s

theorem familyE_frame (s : Chip8) (f : Flow) (h : familyE s = .ok f) : Frame s f.state := by
  unfold familyE at h
  split_ifs at h
  · exact fallThrough_frame _ s f (caseEX9E_frame s) h
  · exact fallThrough_frame _ s f (caseEXA1_frame s) h
  · simp only [pure_ok] at h
    subst h
    exact frame_refl s

theorem familyF_frame (s : Chip8) (f : Flow) (h : familyF s = .ok f) : Frame s f.state := by
  unfold familyF at h
  split_ifs at h
  · exact fallThrough_frame _ s f (caseFX07_frame s) h
  · exact caseFX0A_frame s f h
  · exact fallThrough_frame _ s f (caseFX15_frame s) h
  · exact fallThrough_frame _ s f (caseFX18_frame s) h
  · exact fallThrough_frame _ s f (caseFX1E_frame s) h
  · exact fallThrough_frame _ s f (caseFX29_frame s) h
  · exact fallThrough_frame _ s f (caseFX33_frame s) h
  · exact fallThrough_frame _ s f (caseFX55_frame s) h
  · exact fallThrough_frame _ s f (caseFX65_frame s) h
  · simp only [pure_ok] at h
    subst h
    exact frame_refl s

theorem drawPixel_singleBit (x y yline pixel : Nat) (s s1 : Chip8) (xline : Nat)
    (hs : SingleBit s.gfx) (h : drawPixel x y yline pixel s xline = .ok s1) :
    SingleBit s1.gfx := by
  unfold drawPixel at h
  split_ifs at h
  · simp only [bind_ok, load_ok, pure_ok] at h
    obtain ⟨_, ⟨hlt, rfl⟩, _, ⟨_, rfl⟩, rfl⟩ := h
    intro i hi
    simp only [upd_apply]
    split_ifs
    · rcases hs _ hlt with h0 | h1
      · right
        rw [h0]
        rfl
      · left
        rw [h1]
        rfl
    · exact hs i hi
  · simp only [pure_ok] at h
    subst h
    exact hs

theorem drawRow_singleBit (x y height : Nat) (s s1 : Chip8) (yline : Nat)
    (hs : SingleBit s.gfx) (h : drawRow x y height s yline = .ok s1) :
    SingleBit s1.gfx := by
  unfold drawRow at h
  simp only [bind_ok, load_ok] at h
  obtain ⟨pixel, _, hfold⟩ := h
  exact foldlM_invariant (fun t => SingleBit t.gfx) _
    (fun b a b1 hb hf => drawPixel_singleBit x y yline pixel b b1 a hb hf) _ s s1 hs hfold

theorem drawSprite_singleBit (s s1 : Chip8) (hs : SingleBit s.gfx)
    (h : drawSprite s = .ok s1) : SingleBit s1.gfx := by
  unfold drawSprite at h
  simp only [bind_ok, load_ok, pure_ok] at h
  obtain ⟨x, _, y, _, s2, hfold, rfl⟩ := h
  exact foldlM_invariant (fun t => SingleBit t.gfx) _
    (fun b a b1 hb hf => drawRow_singleBit x y _ b b1 a hb hf) _ _ s2 hs hfold

theorem family0_singleBit (s : Chip8) (f : Flow) (hs : SingleBit s.gfx)
    (h : family0 s = .ok f) : SingleBit f.state.gfx := by
  unfold family0 at h
  split_ifs at h
  · simp only [pure_ok] at h
    subst h
    intro i hi
    left
    simp [Flow.state, case00E0, goToNextInstruction, clearScreen, hi]
  · simp only [bind_ok, pure_ok] at h
    obtain ⟨s1, h1, rfl⟩ := h
    unfold case00EE at h1
    simp only [bind_ok, load_ok, pure_ok] at h1
    obtain ⟨_, ⟨_, rfl⟩, rfl⟩ := h1
    exact hs
  · simp only [pure_ok] at h
    subst h
    exact hs

theorem dispatch_singleBit (rnd : Nat) (s : Chip8) (f : Flow) (hs : SingleBit s.gfx)
    (h : dispatch rnd s = .ok f) : SingleBit f.state.gfx := by
  have key : ∀ t : Chip8, Frame s t → SingleBit t.gfx := fun t ht => by rw [ht.2]; exact hs
  revert h
  apply dispatch_elim rnd s (fun r => r = .ok f → SingleBit f.state.gfx) <;> intro h
  · exact family0_singleBit s f hs h
  · simp only [pure_ok] at h
    subst h
    exact hs
  · simp only [bind_ok, pure_ok] at h
    obtain ⟨s1, h1, rfl⟩ := h
    unfold call at h1
    simp only [bind_ok, store_ok, pure_ok] at h1
    obtain ⟨_, ⟨_, rfl⟩, rfl⟩ := h1
    exact hs
  · exact key _ (fallThrough_frame _ s f (case3XNN_frame s) h)
  · exact key _ (fallThrough_frame _ s f (case4XNN_frame s) h)
  · exact key _ (fallThrough_frame _ s f (case5XY0_frame s) h)
  · exact key _ (fallThrough_frame _ s f (case6XNN_frame s) h)
  · exact key _ (fallThrough_frame _ s f (case7XNN_frame s) h)
  · exact key _ (family8_frame s f h)
  · exact key _ (fallThrough_frame _ s f (case9XY0_frame s) h)
  · simp only [pure_ok] at h
    subst h
    exact hs
  · exact key _ (fallThrough_frame _ s f (caseBNNN_frame s) h)
  · exact key _ (fallThrough_frame _ s f (caseCXNN_frame rnd s) h)
  · simp only [bind_ok, pure_ok] at h
    obtain ⟨s1, h1, rfl⟩ := h
    unfold caseDXYN at h1
    simp only [bind_ok, pure_ok] at h1
    obtain ⟨s2, hdraw, rfl⟩ := h1
    exact drawSprite_singleBit s s2 hs hdraw
  · exact key _ (familyE_frame s f h)
  · exact key _ (familyF_frame s f h)
  · simp only [pure_ok] at h
    subst h
    exact hs

theorem fetch_gfx (s s1 : Chip8) (h : fetch s = .ok s1) : s1.gfx = s.gfx := by
  unfold fetch at h
  simp only [bind_ok, load_ok, pure_ok] at h
  obtain ⟨_, _, _, _, rfl⟩ := h
  rfl

/-- C19. Display cells are single-bit: `initilize` yields a display in which every cell is
0 or 1, and for every state in which every display cell is 0 or 1 and every instruction
word, a completed cycle yields a state in which every display cell is again 0 or 1. -/
theorem display_cells_single_bit :
    (∀ s : Chip8, SingleBit (initilize s).gfx) ∧
    (∀ (rnd : Nat) (s s1 : Chip8), SingleBit s.gfx → cycle rnd s = .ok s1 →
      SingleBit s1.gfx) := by
  constructor
  · intro s i hi
    left
    simp [initilize, clearScreen, hi]
  · intro rnd s s2 hs h
    rw [cycle_ok_iff] at h
    obtain ⟨s1, f, hf, hd, hres⟩ := h
    have h1 : SingleBit s1.gfx := by rw [fetch_gfx s s1 hf]; exact hs
    have h2 := dispatch_singleBit rnd s1 f h1 hd
    rcases hres with ⟨t, rfl, rfl⟩ | rfl
    · rw [updateTimers_gfx]
      exact h2
    · exact h2

theorem display_cells_single_bit_witness :
    SingleBit (initilize litState).gfx ∧
    ∃ s1, cycle 0 (spriteState 0 0 1 0xFF) = .ok s1 ∧ s1.gfx 0 = 1 ∧ SingleBit s1.gfx :=
  ⟨display_cells_single_bit.1 litState,
    ⟨updateTimers (goToNextInstruction
        { spriteState 0 0 1 0xFF with
          opcode := 0xD011, gfx := upd (spriteState 0 0 1 0xFF).gfx 0 1,
          V := upd (spriteState 0 0 1 0xFF).V 0xF 0, drawFlag := true }),
      rfl, by decide,
      display_cells_single_bit.2 0 (spriteState 0 0 1 0xFF) _ (fun _ _ => Or.inl rfl) rfl⟩⟩

/-! ## Reach of `drawSprite` -/

theorem foldlM_invariant_mem {α β : Type} (P : β → Prop) (f : β → α → Except Fault β) :
    ∀ (l : List α) (b b1 : β), (∀ b a b1, a ∈ l → P b → f b a = .ok b1 → P b1) →
      P b → l.foldlM f b = .ok b1 → P b1 := by
  intro l
  induction l with
  | nil =>
    intro b b1 _ hb h
    simp only [List.foldlM_nil, pure_ok] at h
    subst h
    exact hb
  | cons a l ih =>
    intro b b1 hf hb h
    simp only [List.foldlM_cons, bind_ok] at h
    obtain ⟨b2, h1, h2⟩ := h
    exact ih b2 b1 (fun b a1 b1 ha => hf b a1 b1 (List.mem_cons_of_mem a ha))
      (hf b a b2 (List.mem_cons_self a l) hb h1) h2

theorem foldlM_total {α β : Type} (P : β → Prop) (f : β → α → Except Fault β) :
    ∀ (l : List α) (b : β), (∀ b a, a ∈ l → P b → ∃ b1, f b a = .ok b1 ∧ P b1) →
      P b → ∃ b1, l.foldlM f b = .ok b1 ∧ P b1 := by
  intro l
  induction l with
  | nil =>
    intro b _ hb
    exact ⟨b, rfl, hb⟩
  | cons a l ih =>
    intro b hf hb
    obtain ⟨b2, h1, h2⟩ := hf b a (List.mem_cons_self a l) hb
    obtain ⟨b3, h3, h4⟩ := ih b2 (fun b a1 ha => hf b a1 (List.mem_cons_of_mem a ha)) h2
    refine ⟨b3, ?_, h4⟩
    simp only [List.foldlM_cons, bind_ok]
    exact ⟨b2, h1, h3⟩

theorem gfxIndex_eq (x y c r : Nat) :
    gfxIndex x y c r = (x + c + 64 * (y + r)) % 256 := by
  unfold gfxIndex
  omega

theorem gfxIndex_lt (x y c r : Nat) : gfxIndex x y c r < 256 := by
  unfold gfxIndex
  omega

theorem drawPixel_gfx (x y yline pixel : Nat) (s s1 : Chip8) (xline : Nat)
    (h : drawPixel x y yline pixel s xline = .ok s1) (i : Nat)
    (hi : i ≠ gfxIndex x y xline yline) : s1.gfx i = s.gfx i := by
  unfold drawPixel at h
  split_ifs at h
  · simp only [bind_ok, load_ok, pure_ok] at h
    obtain ⟨_, ⟨_, rfl⟩, _, ⟨_, rfl⟩, rfl⟩ := h
    simp [hi]
  · simp only [pure_ok] at h
    subst h
    rfl

theorem drawPixel_total (x y yline pixel : Nat) (s : Chip8) (xline : Nat) :
    ∃ s1, drawPixel x y yline pixel s xline = .ok s1 ∧ s1.I = s.I := by
  have hlt : gfxIndex x y xline yline < 2048 :=
    Nat.lt_of_lt_of_le (gfxIndex_lt x y xline yline) (by decide)
  unfold drawPixel
  split_ifs
  · simp only [load, hlt, if_true, bind, Except.bind, pure, Except.pure]
    exact ⟨_, rfl, rfl⟩
  · exact ⟨s, rfl, rfl⟩

theorem drawRow_gfx (x y height : Nat) (s s1 : Chip8) (yline : Nat)
    (h : drawRow x y height s yline = .ok s1) (i : Nat)
    (hi : ∀ c, c < height → i ≠ gfxIndex x y c yline) : s1.gfx i = s.gfx i := by
  unfold drawRow at h
  simp only [bind_ok, load_ok] at h
  obtain ⟨pixel, _, hfold⟩ := h
  exact foldlM_invariant_mem (fun t => t.gfx i = s.gfx i) _ _ s s1
    (fun b a b1 ha hb hf =>
      (drawPixel_gfx x y yline pixel b b1 a hf i (hi a (List.mem_range.mp ha))).trans hb)
    rfl hfold

theorem drawRow_total (x y height : Nat) (s : Chip8) (yline : Nat)
    (hrow : (s.I + yline % 65536) % 65536 < 4096) :
    ∃ s1, drawRow x y height s yline = .ok s1 ∧ s1.I = s.I := by
  unfold drawRow
  simp only [load, hrow, if_true, bind, Except.bind]
  exact foldlM_total (fun t => t.I = s.I) _ _ s
    (fun b a _ hb => by
      obtain ⟨b1, h1, h2⟩ :=
        drawPixel_total x y yline (s.memory ((s.I + yline % 65536) % 65536)) b a
      exact ⟨b1, h1, h2.trans hb⟩)
    rfl

theorem drawSprite_gfx (s s1 : Chip8) (h : drawSprite s = .ok s1) (i : Nat)
    (hi : ∀ r c, r < s.opcode &&& 0x000F → c < s.opcode &&& 0x000F →
      i ≠ gfxIndex (s.V (opX s)) (s.V (opY s)) c r) : s1.gfx i = s.gfx i := by
  unfold drawSprite at h
  simp only [bind_ok, load_ok, pure_ok] at h
  obtain ⟨_, ⟨_, rfl⟩, _, ⟨_, rfl⟩, s2, hfold, rfl⟩ := h
  exact foldlM_invariant_mem (fun t => t.gfx i = s.gfx i) _ _ _ s2
    (fun b a b1 ha hb hf =>
      (drawRow_gfx _ _ _ b b1 a hf i (fun c hc => hi a c (List.mem_range.mp ha) hc)).trans hb)
    rfl hfold

theorem drawSprite_total (s : Chip8)
    (hrows : ∀ r, r < s.opcode &&& 0x000F → (s.I + r) % 65536 < 4096) :
    ∃ s1, drawSprite s = .ok s1 := by
  have hn : s.opcode &&& 0x000F < 16 := by
    rw [and_000F]
    omega
  unfold drawSprite
  simp only [load, opX_lt, opY_lt, if_true, bind_ok, pure_ok]
  obtain ⟨s2, h2, _⟩ := foldlM_total (fun t : Chip8 => t.I = s.I)
    (drawRow (s.V (opX s)) (s.V (opY s)) (s.opcode &&& 0x000F))
    (List.range (s.opcode &&& 0x000F)) { s with V := upd s.V 0xF 0 }
    (fun b a ha hb => by
      have ha1 : a < s.opcode &&& 0x000F := List.mem_range.mp ha
      have hmod : a % 65536 = a := by omega
      have hrow : (b.I + a % 65536) % 65536 < 4096 := by
        rw [hb, hmod]
        exact hrows a ha1
      obtain ⟨b1, h1, h3⟩ := drawRow_total _ _ _ b a hrow
      exact ⟨b1, h1, h3.trans hb⟩)
    rfl
  exact ⟨_, _, rfl, _, rfl, s2, h2, rfl⟩

/-- C20. Reach of `drawSprite` on a word `DXYN`: the display index used for every read and
write, `gfxIndex`, is `(V[x] + c + 64 * (V[y] + r)) mod 256` and so always below 256, inside
the display; the draw completes whenever the `n` sprite rows `memory[I + r]` are readable;
and a completed draw leaves unchanged every display cell that is not
`(V[x] + c + 64 * (V[y] + r)) mod 256` for some `r < n` and `c < n`, in particular every cell
with index `>= 256` (rows 4..31). -/
theorem drawSprite_reach (s : Chip8) (x y n : Nat) (hx : x < 16) (hy : y < 16) (hn : n < 16)
    (hop : s.opcode = 0xD000 + x * 256 + y * 16 + n) :
    (∀ r c, gfxIndex (s.V x) (s.V y) c r = (s.V x + c + 64 * (s.V y + r)) % 256 ∧
      gfxIndex (s.V x) (s.V y) c r < 256) ∧
    ((∀ r, r < n → (s.I + r) % 65536 < 4096) → ∃ s1, drawSprite s = .ok s1) ∧
    (∀ s1, drawSprite s = .ok s1 →
      (∀ i, (∀ r c, r < n → c < n → i ≠ (s.V x + c + 64 * (s.V y + r)) % 256) →
        s1.gfx i = s.gfx i) ∧
      (∀ i, 256 ≤ i → s1.gfx i = s.gfx i)) := by
  have hX : opX s = x := by rw [opX_eq]; omega
  have hY : opY s = y := by rw [opY_eq]; omega
  have hN : s.opcode &&& 0x000F = n := by rw [and_000F]; omega
  refine ⟨fun r c => ⟨gfxIndex_eq _ _ c r, gfxIndex_lt _ _ c r⟩, ?_, ?_⟩
  · intro hrows
    exact drawSprite_total s (by rw [hN]; exact hrows)
  · intro s1 h1
    have hframe : ∀ i, (∀ r c, r < n → c < n → i ≠ (s.V x + c + 64 * (s.V y + r)) % 256) →
        s1.gfx i = s.gfx i := by
      intro i hi
      apply drawSprite_gfx s s1 h1 i
      rw [hN, hX, hY]
      intro r c hr hc
      rw [gfxIndex_eq]
      exact hi r c hr hc
    refine ⟨hframe, fun i hi => hframe i (fun r c _ _ => ?_)⟩
    have := Nat.mod_lt (s.V x + c + 64 * (s.V y + r)) (by decide : 0 < 256)
    omega

theorem drawSprite_reach_witness :
    ∃ s1, drawSprite fetchedSprite = .ok s1 ∧
      ∀ i, 256 ≤ i → s1.gfx i = fetchedSprite.gfx i := by
  obtain ⟨_, hok, hframe⟩ :=
    drawSprite_reach fetchedSprite 0 1 2 (by decide) (by decide) (by decide) (by decide)
  obtain ⟨s1, h1⟩ := hok (by decide)
  exact ⟨s1, h1, (hframe s1 h1).2⟩

end Chip8Go
